import Mathlib

/-!
# Verification of the content-based recommendation and feedback re-ranking engine

Shallow embedding of `backend/app/services/recommendation_service.py` (and the
category/limit handling of `backend/app/api/v1/routes.py`).

Modelling conventions:
* Python floats are modelled as `ℚ` for all stored/input data; score values are
  `ℝ`, because Python's `0.5 ** d` / `0.7 ** r` with a float exponent is a real
  power (`Real.rpow`).
* A Python function that can raise on some input is modelled with an `Option`
  result; `none` is a raised exception.
* The tag payload of a route is modelled at the parsed-JSON level by a small
  `Json` AST plus a `TagPayload` wrapper distinguishing an absent (falsy)
  payload, an unparseable one (where `json.loads` raises and the `except`
  branch fires), and a successfully parsed value.
* For the mutation claims, Python list objects live in an explicit `Heap` and
  dicts hold references into it, so aliasing and in-place writes are
  observable.
-/

/-- Python's `str.lower()`.  (Defined through the character list rather than
`str_lower` so that concrete evaluations reduce in the kernel; the two
agree character-wise via `Char.toLower`.) -/
def str_lower (s : String) : String := ⟨s.data.map Char.toLower⟩

/-- `ProfileFeedback` entity: the fields the recommendation service reads. -/
structure ProfileFeedback where
  route_id : ℤ
  reason : String
deriving DecidableEq

/-- `FEEDBACK_PENALTY_MULTIPLIERS`: the module-level dict `{1: 0.5, 2: 0.1, 3: 0.01}`
(keys outside the dict are never looked up by the source). -/
def FEEDBACK_PENALTY_MULTIPLIERS (n : ℕ) : ℚ :=
  if n = 1 then 1/2 else if n = 2 then 1/10 else if n = 3 then 1/100 else 0

/-- `FEEDBACK_FILTER_THRESHOLD = 4`. -/
def FEEDBACK_FILTER_THRESHOLD : ℕ := 4

/-- `TIME_DECAY_HALF_LIFE_DAYS = 30.0`. -/
def TIME_DECAY_HALF_LIFE_DAYS : ℚ := 30

/-- `CATEGORY_MAPPING`: custom category → route.category_name values. -/
def CATEGORY_MAPPING : List (String × List String) :=
  [("running", ["Jogging", "Trail running"]),
   ("hiking", ["Theme trail", "Hiking trail"]),
   ("cycling", ["Cycling", "Mountainbiking", "Long distance cycling"])]

/-- `SCORE_WEIGHTS`: the dict `{"difficulty": 0.4, "distance": 0.3, "tags": 0.3}`. -/
def SCORE_WEIGHTS (component : String) : ℚ :=
  if component = "difficulty" then 2/5
  else if component = "distance" then 3/10
  else if component = "tags" then 3/10
  else 0

/-- `calculate_time_decay_weight(days_ago, half_life_days)`:
`1.0` for `days_ago <= 0`, else `exp(-days_ago / half_life_days)`. -/
noncomputable def calculate_time_decay_weight (days_ago half_life_days : ℚ) : ℝ :=
  if days_ago ≤ 0 then 1 else Real.exp (-((days_ago : ℝ) / (half_life_days : ℝ)))

/-- `calculate_difficulty_score(user_difficulty_range, route_difficulty)`.
A list with fewer than two entries gives the neutral `0.5`; a value inside
`[range[0], range[1]]` gives `1.0`; otherwise `max(0.0, 0.5 ** distance)`. -/
noncomputable def calculate_difficulty_score
    (user_difficulty_range : List ℚ) (route_difficulty : ℚ) : ℝ :=
  match user_difficulty_range with
  | min_diff :: max_diff :: _ =>
    if min_diff ≤ route_difficulty ∧ route_difficulty ≤ max_diff then 1
    else
      let distance : ℚ :=
        if route_difficulty < min_diff then min_diff - route_difficulty
        else route_difficulty - max_diff
      max 0 ((1/2 : ℝ) ^ ((distance : ℝ)))
  | _ => 1/2

/-- `calculate_distance_score(user_min_km, user_max_km, route_length_km)`.
`0.3` for a zero length, `1.0` inside the range, otherwise
`max(0.0, 0.7 ** ((..)/user_max_km))`.  The division raises
`ZeroDivisionError` when `user_max_km == 0`, modelled by `none`. -/
noncomputable def calculate_distance_score
    (user_min_km user_max_km route_length_km : ℚ) : Option ℝ :=
  if route_length_km = 0 then some 0.3
  else if user_min_km ≤ route_length_km ∧ route_length_km ≤ user_max_km then some 1
  else if user_max_km = 0 then none
  else
    let distance_ratio : ℚ :=
      if route_length_km < user_min_km then (user_min_km - route_length_km) / user_max_km
      else (route_length_km - user_max_km) / user_max_km
    some (max 0 ((0.7 : ℝ) ^ ((distance_ratio : ℝ))))

/-- `calculate_tag_score(user_tags, route_tags)`: Jaccard similarity over the
lower-cased tag sets, `0.5` when both lists are empty, `0.2` when exactly one
is empty, `0.0` for an empty union. -/
def calculate_tag_score (user_tags route_tags : List String) : ℚ :=
  if user_tags.isEmpty ∧ route_tags.isEmpty then 1/2
  else if user_tags.isEmpty ∨ route_tags.isEmpty then 1/5
  else
    let user_set := (user_tags.map str_lower).toFinset
    let route_set := (route_tags.map str_lower).toFinset
    let intersection := user_set ∩ route_set
    let union := user_set ∪ route_set
    if union.card = 0 then 0
    else (intersection.card : ℚ) / (union.card : ℚ)

/-- The user preference vector as `calculate_cbf_score` and
`adjust_user_vector_with_feedback` read it: a dict whose four relevant keys
may each be absent (`none`). -/
structure UserVector where
  difficulty_range : Option (List ℚ)
  min_distance_km : Option ℚ
  max_distance_km : Option ℚ
  preferred_tags : Option (List String)
deriving DecidableEq

/-- A well-typed route feature vector, as consumed by `calculate_cbf_score`. -/
structure RouteVector where
  difficulty : ℚ
  length_km : ℚ
  tags : List String
deriving DecidableEq

/-- `calculate_cbf_score(user_vector, route_vector)`: the weighted sum of the
three component scores, with the source's `.get` defaults for missing user
fields.  `none` when the distance scorer raises.  (The breakdown dict built by
the source carries the same numbers and is not modelled.) -/
noncomputable def calculate_cbf_score
    (user_vector : UserVector) (route_vector : RouteVector) : Option ℝ :=
  let difficulty_score :=
    calculate_difficulty_score (user_vector.difficulty_range.getD [0, 3])
      route_vector.difficulty
  match calculate_distance_score (user_vector.min_distance_km.getD 0)
      (user_vector.max_distance_km.getD 100) route_vector.length_km with
  | none => none
  | some distance_score =>
    let tag_score := calculate_tag_score (user_vector.preferred_tags.getD [])
      route_vector.tags
    some ((SCORE_WEIGHTS "difficulty" : ℝ) * difficulty_score
      + (SCORE_WEIGHTS "distance" : ℝ) * distance_score
      + (SCORE_WEIGHTS "tags" : ℝ) * (tag_score : ℝ))

/-- `calculate_feedback_penalty(route_id, feedback_entries)`. -/
def calculate_feedback_penalty
    (route_id : ℤ) (feedback_entries : List ProfileFeedback) : ℚ :=
  let route_feedback := feedback_entries.filter (fun f => f.route_id == route_id)
  if route_feedback.isEmpty then 1
  else if 3 ≤ route_feedback.length then FEEDBACK_PENALTY_MULTIPLIERS 3
  else if route_feedback.length = 2 then FEEDBACK_PENALTY_MULTIPLIERS 2
  else FEEDBACK_PENALTY_MULTIPLIERS 1

/-- Parsed JSON values, as `json.loads` can return them. -/
inductive Json where
  | null : Json
  | bool (b : Bool) : Json
  | num (n : ℚ) : Json
  | str (s : String) : Json
  | arr (elements : List Json) : Json
  | obj (fields : List (String × Json)) : Json

/-- The state of a route's `tags_json` column as `extract_route_vector` sees
it: falsy (`None` / empty string), a string `json.loads` rejects, or a string
parsing to a JSON value. -/
inductive TagPayload where
  | absent : TagPayload
  | unparseable : TagPayload
  | parsed (value : Json) : TagPayload

/-- The `Route` entity: the columns the recommendation service reads. -/
structure Route where
  id : ℤ
  category_name : String
  difficulty : Option ℚ
  length_meters : Option ℚ
  tags_json : TagPayload

/-- What `extract_route_vector` actually returns: the `tags` slot holds
whatever `json.loads` produced when the payload is not a list, so it is kept
as a raw `Json` value. -/
structure RawRouteVector where
  difficulty : ℚ
  length_km : ℚ
  tags : Json

/-- The tag-flattening loop of `extract_route_vector`: strings are
lower-cased, dicts contribute their lower-cased `"name"` value, other entries
are skipped.  A `"name"` value that is not a string raises `AttributeError`
(`.lower()` on a non-string), which the surrounding `except` does not catch:
modelled by `none`. -/
def flatten_tags : List Json → Option (List String)
  | [] => some []
  | Json.str s :: rest => (flatten_tags rest).map (fun ts => str_lower s :: ts)
  | Json.obj fields :: rest =>
    match fields.lookup "name" with
    | some (Json.str s) => (flatten_tags rest).map (fun ts => str_lower s :: ts)
    | some _ => none
    | none => flatten_tags rest
  | _ :: rest => flatten_tags rest

/-- `extract_route_vector(route)`.  `none` models a raised exception. -/
def extract_route_vector (route : Route) : Option RawRouteVector :=
  let difficulty := route.difficulty.getD 0
  let length_km : ℚ :=
    match route.length_meters with
    | some m => if m ≠ 0 then m / 1000 else 0
    | none => 0
  match route.tags_json with
  | TagPayload.absent => some ⟨difficulty, length_km, Json.arr []⟩
  | TagPayload.unparseable => some ⟨difficulty, length_km, Json.arr []⟩
  | TagPayload.parsed (Json.arr l) =>
    (flatten_tags l).map (fun ts => ⟨difficulty, length_km, Json.arr (ts.map Json.str)⟩)
  | TagPayload.parsed v => some ⟨difficulty, length_km, v⟩

/-- The category filter of `get_recommended_routes`: a truthy category that is
a key of `CATEGORY_MAPPING` restricts to the mapped `category_name` values;
anything else leaves the candidate list unfiltered. -/
def filter_routes_by_category (category : Option String) (routes : List Route) :
    List Route :=
  match category with
  | none => routes
  | some c =>
    if c ≠ "" then
      match CATEGORY_MAPPING.lookup c with
      | some category_names =>
        routes.filter (fun r => category_names.contains r.category_name)
      | none => routes
    else routes

/-- Python's `l[:limit]` for an `int` limit (negative limits drop from the
end, as in `route_scores[:limit]`). -/
def python_slice_to (limit : ℤ) (l : List α) : List α :=
  if 0 ≤ limit then l.take limit.toNat
  else l.take (((l.length : ℤ) + limit).toNat)

/-- `route_scores.sort(key=lambda x: x[1], reverse=True)`: stable descending
sort by score. -/
noncomputable def sort_by_score_desc (route_scores : List (ℤ × ℝ)) : List (ℤ × ℝ) :=
  route_scores.mergeSort (fun a b => decide (b.2 ≤ a.2))

/-- The scoring loop of `get_recommended_routes` (personalized mode): routes
with `FEEDBACK_FILTER_THRESHOLD` or more matching feedback entries are skipped
before scoring; every other route gets `final_score = base_score *
penalty_multiplier`.  Takes each candidate as `(route.id, route_vector)`;
`none` models a raised exception inside scoring. -/
noncomputable def score_routes (adjusted_user_vector : UserVector)
    (feedback_entries : List ProfileFeedback) :
    List (ℤ × RouteVector) → Option (List (ℤ × ℝ))
  | [] => some []
  | (route_id, route_vector) :: rest =>
    let route_feedback_count :=
      (feedback_entries.filter (fun f => f.route_id == route_id)).length
    if FEEDBACK_FILTER_THRESHOLD ≤ route_feedback_count then
      score_routes adjusted_user_vector feedback_entries rest
    else
      match calculate_cbf_score adjusted_user_vector route_vector with
      | none => none
      | some base_score =>
        match score_routes adjusted_user_vector feedback_entries rest with
        | none => none
        | some scored_rest =>
          some ((route_id,
            base_score * ((calculate_feedback_penalty route_id feedback_entries : ℚ) : ℝ))
            :: scored_rest)

/-- The tail of `get_recommended_routes` in personalized mode: score, sort by
final score descending, truncate to `limit`.  (The relationship reload keeps
the same routes and order, so the returned ids are those of this list.) -/
noncomputable def get_recommended_routes_core (adjusted_user_vector : UserVector)
    (feedback_entries : List ProfileFeedback) (routes : List (ℤ × RouteVector))
    (limit : ℤ) : Option (List (ℤ × ℝ)) :=
  (score_routes adjusted_user_vector feedback_entries routes).map
    (fun route_scores => python_slice_to limit (sort_by_score_desc route_scores))

/-- A reference to a Python list object. -/
abbrev Ref := ℕ

/-- The store of mutable Python list objects the adjustment function touches:
numeric lists (difficulty ranges) and string lists (tag lists). -/
structure Heap where
  qlists : List (List ℚ)
  slists : List (List String)
deriving DecidableEq

/-- Dereference a numeric list. -/
def Heap.getQ (h : Heap) (r : Ref) : List ℚ := (h.qlists[r]?).getD []

/-- Dereference a string list. -/
def Heap.getS (h : Heap) (r : Ref) : List String := (h.slists[r]?).getD []

/-- Allocate a fresh numeric list object. -/
def Heap.allocQ (h : Heap) (l : List ℚ) : Heap × Ref :=
  (⟨h.qlists ++ [l], h.slists⟩, h.qlists.length)

/-- Allocate a fresh string list object. -/
def Heap.allocS (h : Heap) (l : List String) : Heap × Ref :=
  (⟨h.qlists, h.slists ++ [l]⟩, h.slists.length)

/-- In-place write `list_object[i] = v` on a numeric list. -/
def Heap.setQElem (h : Heap) (r : Ref) (i : ℕ) (v : ℚ) : Heap :=
  ⟨h.qlists.set r ((h.getQ r).set i v), h.slists⟩

/-- A user preference dict: numeric values are immutable, the two list-valued
keys hold references into the heap. -/
structure UserVectorObj where
  difficulty_range : Option Ref
  min_distance_km : Option ℚ
  max_distance_km : Option ℚ
  preferred_tags : Option Ref
deriving DecidableEq

/-- A route vector dict as built by extraction, with its tag list held by
reference. -/
structure RouteVectorObj where
  difficulty : ℚ
  length_km : ℚ
  tags : Ref
deriving DecidableEq

/-- The value a preference dict denotes: every list dereferenced. -/
def viewUser (h : Heap) (o : UserVectorObj) : UserVector :=
  ⟨o.difficulty_range.map h.getQ, o.min_distance_km, o.max_distance_km,
    o.preferred_tags.map h.getS⟩

/-- The value a route vector dict denotes. -/
def viewRoute (h : Heap) (o : RouteVectorObj) : RouteVector :=
  ⟨o.difficulty, o.length_km, h.getS o.tags⟩

/-- One iteration of the `for feedback in feedback_entries` loop of
`adjust_user_vector_with_feedback`, acting on the working state
`(difficulty-range ref, max_distance_km, preferred-tags ref)`.

The source hard-codes `days_ago = 0.0`, so the recency weight is
`calculate_time_decay_weight(0.0) = 1.0` on every iteration (see
`decay_weight_at_zero`); it is inlined as the rational `weight = 1` to keep
the heap rational.  `none` models an `IndexError` reading `[0]`/`[1]` of a
too-short difficulty range. -/
def adjust_step (route_vectors : ℤ → Option RouteVectorObj) (min_distance_km : ℚ)
    (h : Heap) (range_ref : Ref) (max_distance : ℚ) (tags_ref : Ref)
    (feedback : ProfileFeedback) : Heap × Option (Ref × ℚ × Ref) :=
  match route_vectors feedback.route_id with
  | none => (h, some (range_ref, max_distance, tags_ref))
  | some route_vector =>
    let weight : ℚ := 1
    if feedback.reason = "too-hard" then
      match (h.getQ range_ref)[0]? with
      | none => (h, none)
      | some b0 =>
        let new_min := max 0 (b0 - 1/2 * weight)
        match (h.getQ range_ref)[1]? with
        | none => (h, none)
        | some b1 =>
          let new_max0 := max 0 (b1 - 1/2 * weight)
          let new_max := if new_min = 0 ∧ new_max0 < 1 then 1 else new_max0
          (((h.setQElem range_ref 0 new_min).setQElem range_ref 1 new_max),
            some (range_ref, max_distance, tags_ref))
    else if feedback.reason = "too-easy" then
      match (h.getQ range_ref)[0]? with
      | none => (h, none)
      | some b0 =>
        let new_min0 := min 3 (b0 + 1/2 * weight)
        match (h.getQ range_ref)[1]? with
        | none => (h, none)
        | some b1 =>
          let new_max := min 3 (b1 + 1/2 * weight)
          let new_min := if new_max = 3 ∧ new_min0 > 2 then 2 else new_min0
          (((h.setQElem range_ref 0 new_min).setQElem range_ref 1 new_max),
            some (range_ref, max_distance, tags_ref))
    else if feedback.reason = "too-far" then
      let new_max := max_distance * (1 - 1/10 * weight)
      let min_allowed_max := min_distance_km + 2
      (h, some (range_ref, max new_max min_allowed_max, tags_ref))
    else if feedback.reason = "not-interested" then
      let route_tags := h.getS route_vector.tags
      let route_tag_set := (route_tags.map str_lower).toFinset
      let new_tags := (h.getS tags_ref).filter
        (fun tag => !(decide (str_lower tag ∈ route_tag_set)))
      let (h1, fresh) := h.allocS new_tags
      (h1, some (range_ref, max_distance, fresh))
    else (h, some (range_ref, max_distance, tags_ref))

/-- The feedback loop: thread the heap and working state through the entries,
stopping at a raised exception but keeping the heap as it stood. -/
def adjust_loop (route_vectors : ℤ → Option RouteVectorObj) (min_distance_km : ℚ) :
    List ProfileFeedback → Heap → Ref → ℚ → Ref → Heap × Option (Ref × ℚ × Ref)
  | [], h, range_ref, max_distance, tags_ref =>
    (h, some (range_ref, max_distance, tags_ref))
  | feedback :: rest, h, range_ref, max_distance, tags_ref =>
    match adjust_step route_vectors min_distance_km h range_ref max_distance tags_ref
        feedback with
    | (h', none) => (h', none)
    | (h', some (r', m', t')) =>
      adjust_loop route_vectors min_distance_km rest h' r' m' t'

/-- The normalization prologue of `adjust_user_vector_with_feedback`: the
dict is shallow-copied and the three adjustable keys are initialized
(missing key → default, present list → `list(...)` copy, present max
distance → `float(...)`).  Returns the heap plus the working state
`(difficulty-range ref, max_distance_km, preferred-tags ref)`. -/
def adjust_init (h : Heap) (user_vector : UserVectorObj) : Heap × Ref × ℚ × Ref :=
  let p1 : Heap × Ref :=
    match user_vector.difficulty_range with
    | none => h.allocQ [0, 3]
    | some r => h.allocQ (h.getQ r)
  let max_distance : ℚ :=
    match user_vector.max_distance_km with
    | none => 100
    | some m => m
  let p2 : Heap × Ref :=
    match user_vector.preferred_tags with
    | none => p1.1.allocS []
    | some r => p1.1.allocS (p1.1.getS r)
  (p2.1, p1.2, max_distance, p2.2)

/-- The final validity checks of `adjust_user_vector_with_feedback`: an
inverted difficulty range falls back to the caller's original list object (or
a fresh `[0, 3]`), a non-positive max distance falls back to the caller's
original value, and the adjusted dict is assembled.  `none` models the
`IndexError` raised when the difficulty range has fewer than two entries. -/
def adjust_finalize (h3 : Heap) (user_vector : UserVectorObj) (range_ref' : Ref)
    (max_distance' : ℚ) (tags_ref' : Ref) : Heap × Option UserVectorObj :=
  match (h3.getQ range_ref')[0]?, (h3.getQ range_ref')[1]? with
  | some lo, some hi =>
    let p3 : Heap × Ref :=
      if hi < lo then
        match user_vector.difficulty_range with
        | some r => (h3, r)
        | none => h3.allocQ [0, 3]
      else (h3, range_ref')
    let final_max : ℚ :=
      if max_distance' ≤ 0 then
        match user_vector.max_distance_km with
        | some m => m
        | none => 100
      else max_distance'
    (p3.1, some ⟨some p3.2, user_vector.min_distance_km, some final_max,
      some tags_ref'⟩)
  | _, _ => (h3, none)

/-- `adjust_user_vector_with_feedback(user_vector, feedback_entries,
route_vectors)`: normalize, run the feedback loop, run the final validity
checks.  `none` models a raised exception. -/
def adjust_user_vector_with_feedback (h : Heap) (user_vector : UserVectorObj)
    (feedback_entries : List ProfileFeedback)
    (route_vectors : ℤ → Option RouteVectorObj) : Heap × Option UserVectorObj :=
  let init := adjust_init h user_vector
  let min_distance_km : ℚ := user_vector.min_distance_km.getD 0
  match adjust_loop route_vectors min_distance_km feedback_entries init.1
      init.2.1 init.2.2.1 init.2.2.2 with
  | (h3, none) => (h3, none)
  | (h3, some (range_ref', max_distance', tags_ref')) =>
    adjust_finalize h3 user_vector range_ref' max_distance' tags_ref'

/-! ## Basic facts about the component scorers -/

/-- The recency weight at the hard-coded `days_ago = 0.0` is `1.0`, for any
half-life: this justifies the inlined `weight = 1` of `adjust_step`. -/
theorem decay_weight_at_zero (half_life_days : ℚ) :
    calculate_time_decay_weight 0 half_life_days = 1 := by
  simp [calculate_time_decay_weight]

theorem difficulty_score_short (r : List ℚ) (v : ℚ) (h : r.length < 2) :
    calculate_difficulty_score r v = 1/2 := by
  match r with
  | [] => rfl
  | [a] => rfl
  | a :: b :: rest => simp at h; omega

theorem difficulty_score_inside (mn mx v : ℚ) (rest : List ℚ)
    (h : mn ≤ v ∧ v ≤ mx) :
    calculate_difficulty_score (mn :: mx :: rest) v = 1 := by
  simp [calculate_difficulty_score, h]

theorem difficulty_outside_pos (mn mx v : ℚ) (h : ¬(mn ≤ v ∧ v ≤ mx)) :
    0 < (if v < mn then mn - v else v - mx) := by
  split_ifs with hv
  · linarith
  · push_neg at h hv
    have := h hv
    linarith

theorem difficulty_score_outside (mn mx v : ℚ) (rest : List ℚ)
    (h : ¬(mn ≤ v ∧ v ≤ mx)) :
    calculate_difficulty_score (mn :: mx :: rest) v =
      (1/2 : ℝ) ^ (((if v < mn then mn - v else v - mx : ℚ) : ℝ)) := by
  have hpos : (0 : ℝ) < (1/2 : ℝ) ^ (((if v < mn then mn - v else v - mx : ℚ) : ℝ)) :=
    Real.rpow_pos_of_pos (by norm_num) _
  simp only [calculate_difficulty_score, if_neg h]
  exact max_eq_right hpos.le

theorem difficulty_score_nonneg (r : List ℚ) (v : ℚ) :
    0 ≤ calculate_difficulty_score r v := by
  match r with
  | [] => norm_num [calculate_difficulty_score]
  | [a] => norm_num [calculate_difficulty_score]
  | mn :: mx :: rest =>
    by_cases h : mn ≤ v ∧ v ≤ mx
    · rw [difficulty_score_inside mn mx v rest h]; norm_num
    · simp only [calculate_difficulty_score, if_neg h]
      exact le_max_left 0 _

theorem difficulty_score_le_one (r : List ℚ) (v : ℚ) :
    calculate_difficulty_score r v ≤ 1 := by
  match r with
  | [] => norm_num [calculate_difficulty_score]
  | [a] => norm_num [calculate_difficulty_score]
  | mn :: mx :: rest =>
    by_cases h : mn ≤ v ∧ v ≤ mx
    · rw [difficulty_score_inside mn mx v rest h]
    · rw [difficulty_score_outside mn mx v rest h]
      have hd := difficulty_outside_pos mn mx v h
      refine Real.rpow_le_one (by norm_num) (by norm_num) ?_
      exact_mod_cast hd.le

theorem difficulty_score_outside_lt_one (mn mx v : ℚ) (rest : List ℚ)
    (h : ¬(mn ≤ v ∧ v ≤ mx)) :
    calculate_difficulty_score (mn :: mx :: rest) v < 1 := by
  rw [difficulty_score_outside mn mx v rest h]
  have hd := difficulty_outside_pos mn mx v h
  refine Real.rpow_lt_one (by norm_num) (by norm_num) ?_
  exact_mod_cast hd

theorem distance_score_none_iff (mn mx v : ℚ) :
    calculate_distance_score mn mx v = none ↔
      mx = 0 ∧ v ≠ 0 ∧ ¬(mn ≤ v ∧ v ≤ mx) := by
  unfold calculate_distance_score
  split_ifs with h1 h2 h3 <;> simp_all

theorem distance_score_isSome (mn mx v : ℚ) (hm : mx ≠ 0) :
    (calculate_distance_score mn mx v).isSome := by
  rw [Option.isSome_iff_ne_none]
  intro hnone
  exact hm ((distance_score_none_iff mn mx v).mp hnone).1

theorem distance_score_bounds (mn mx v : ℚ) (s : ℝ) (hm : 0 < mx)
    (hs : calculate_distance_score mn mx v = some s) : 0 ≤ s ∧ s ≤ 1 := by
  unfold calculate_distance_score at hs
  by_cases h1 : v = 0
  · rw [if_pos h1] at hs
    cases hs
    norm_num
  rw [if_neg h1] at hs
  by_cases h2 : mn ≤ v ∧ v ≤ mx
  · rw [if_pos h2] at hs
    cases hs
    norm_num
  rw [if_neg h2, if_neg hm.ne'] at hs
  simp only [Option.some.injEq] at hs
  subst hs
  have hratio : (0 : ℚ) ≤
      (if v < mn then (mn - v) / mx else (v - mx) / mx) := by
    by_cases hv : v < mn
    · rw [if_pos hv]
      exact div_nonneg (by linarith) hm.le
    · rw [if_neg hv]
      push_neg at h2 hv
      have hmxv := h2 hv
      exact div_nonneg (by linarith) hm.le
  constructor
  · exact le_max_left 0 _
  · refine max_le (by norm_num) ?_
    refine Real.rpow_le_one (by norm_num) (by norm_num) ?_
    exact_mod_cast hratio

theorem tag_score_bounds (a b : List String) :
    0 ≤ calculate_tag_score a b ∧ calculate_tag_score a b ≤ 1 := by
  simp only [calculate_tag_score]
  split_ifs with h1 h2 h3
  · norm_num
  · norm_num
  · norm_num
  · have hsub : ((a.map str_lower).toFinset ∩ (b.map str_lower).toFinset).card ≤
        ((a.map str_lower).toFinset ∪ (b.map str_lower).toFinset).card :=
      Finset.card_le_card Finset.inter_subset_union
    have hpos : 0 < ((a.map str_lower).toFinset ∪ (b.map str_lower).toFinset).card :=
      Nat.pos_of_ne_zero h3
    constructor
    · positivity
    · rw [div_le_one (by exact_mod_cast hpos)]
      exact_mod_cast hsub

theorem cbf_score_isSome (u : UserVector) (rv : RouteVector)
    (hm : u.max_distance_km.getD 100 ≠ 0) :
    (calculate_cbf_score u rv).isSome := by
  unfold calculate_cbf_score
  have h := distance_score_isSome (u.min_distance_km.getD 0)
    (u.max_distance_km.getD 100) rv.length_km hm
  obtain ⟨d, hd⟩ := Option.isSome_iff_exists.mp h
  rw [hd]
  rfl

theorem cbf_score_bounds (u : UserVector) (rv : RouteVector) (s : ℝ)
    (hm : 0 < u.max_distance_km.getD 100)
    (hs : calculate_cbf_score u rv = some s) : 0 ≤ s ∧ s ≤ 1 := by
  unfold calculate_cbf_score at hs
  obtain ⟨d, hd⟩ := Option.isSome_iff_exists.mp
    (distance_score_isSome (u.min_distance_km.getD 0)
      (u.max_distance_km.getD 100) rv.length_km hm.ne')
  rw [hd] at hs
  simp only [Option.some.injEq] at hs
  subst hs
  have hdiff0 := difficulty_score_nonneg (u.difficulty_range.getD [0, 3]) rv.difficulty
  have hdiff1 := difficulty_score_le_one (u.difficulty_range.getD [0, 3]) rv.difficulty
  have hdist := distance_score_bounds (u.min_distance_km.getD 0)
    (u.max_distance_km.getD 100) rv.length_km d hm hd
  have htag := tag_score_bounds (u.preferred_tags.getD []) rv.tags
  have htag0 : (0 : ℝ) ≤ (calculate_tag_score (u.preferred_tags.getD []) rv.tags : ℝ) := by
    exact_mod_cast htag.1
  have htag1 : (calculate_tag_score (u.preferred_tags.getD []) rv.tags : ℝ) ≤ 1 := by
    exact_mod_cast htag.2
  have hwq : SCORE_WEIGHTS "difficulty" = 2/5 := by
    unfold SCORE_WEIGHTS
    rw [if_pos rfl]
  have hwq2 : SCORE_WEIGHTS "distance" = 3/10 := by
    unfold SCORE_WEIGHTS
    rw [if_neg (by decide), if_pos rfl]
  have hwq3 : SCORE_WEIGHTS "tags" = 3/10 := by
    unfold SCORE_WEIGHTS
    rw [if_neg (by decide), if_neg (by decide), if_pos rfl]
  have hw : ((SCORE_WEIGHTS "difficulty" : ℚ) : ℝ) = 2/5 := by
    rw [hwq]; norm_num
  have hw2 : ((SCORE_WEIGHTS "distance" : ℚ) : ℝ) = 3/10 := by
    rw [hwq2]; norm_num
  have hw3 : ((SCORE_WEIGHTS "tags" : ℚ) : ℝ) = 3/10 := by
    rw [hwq3]; norm_num
  rw [hw, hw2, hw3]
  constructor
  · have := hdist.1
    nlinarith
  · have := hdist.2
    nlinarith

/-- `calculate_feedback_penalty` as a function of the matching-entry count. -/
theorem penalty_eq_of_count (route_id : ℤ) (feedback_entries : List ProfileFeedback) :
    calculate_feedback_penalty route_id feedback_entries =
      (if (feedback_entries.filter (fun f => f.route_id == route_id)).length = 0 then 1
       else if 3 ≤ (feedback_entries.filter (fun f => f.route_id == route_id)).length then 1/100
       else if (feedback_entries.filter (fun f => f.route_id == route_id)).length = 2 then 1/10
       else 1/2) := by
  unfold calculate_feedback_penalty
  simp only [List.isEmpty_iff_length_eq_zero, FEEDBACK_PENALTY_MULTIPLIERS]
  norm_num

/-! ## Facts about the personalized scoring loop -/

theorem score_routes_isSome (u : UserVector) (fb : List ProfileFeedback)
    (hm : u.max_distance_km.getD 100 ≠ 0) (routes : List (ℤ × RouteVector)) :
    (score_routes u fb routes).isSome := by
  induction routes with
  | nil => simp [score_routes]
  | cons head rest ih =>
    obtain ⟨rid, rv⟩ := head
    simp only [score_routes]
    split_ifs
    · exact ih
    · obtain ⟨b, hb⟩ := Option.isSome_iff_exists.mp (cbf_score_isSome u rv hm)
      rw [hb]
      obtain ⟨l, hl⟩ := Option.isSome_iff_exists.mp ih
      rw [hl]
      rfl

theorem score_routes_mem_of_count3 (u : UserVector) (fb : List ProfileFeedback)
    (rid : ℤ) (rv : RouteVector) (b : ℝ) :
    ∀ (routes : List (ℤ × RouteVector)) (l : List (ℤ × ℝ)),
      score_routes u fb routes = some l →
      (fb.filter (fun f => f.route_id == rid)).length = 3 →
      (rid, rv) ∈ routes →
      calculate_cbf_score u rv = some b →
      (rid, b * ((1/100 : ℚ) : ℝ)) ∈ l := by
  intro routes
  induction routes with
  | nil =>
    intro l _ _ hmem
    exact absurd hmem (List.not_mem_nil _)
  | cons head rest ih =>
    obtain ⟨hid, hrv⟩ := head
    intro l hscore hcount hmem hb
    have hpen : calculate_feedback_penalty rid fb = 1/100 := by
      rw [penalty_eq_of_count, hcount]
      norm_num
    simp only [score_routes] at hscore
    by_cases hskip :
        FEEDBACK_FILTER_THRESHOLD ≤ (fb.filter (fun f => f.route_id == hid)).length
    · rw [if_pos hskip] at hscore
      rcases List.mem_cons.mp hmem with heq | hmem'
      · exfalso
        have hhid : hid = rid := by
          have := congrArg Prod.fst heq
          simp at this
          omega
        rw [hhid, hcount] at hskip
        simp [FEEDBACK_FILTER_THRESHOLD] at hskip
      · exact ih l hscore hcount hmem' hb
    · rw [if_neg hskip] at hscore
      cases hcbf : calculate_cbf_score u hrv with
      | none => rw [hcbf] at hscore; cases hscore
      | some bh =>
        rw [hcbf] at hscore
        cases hrest : score_routes u fb rest with
        | none => rw [hrest] at hscore; cases hscore
        | some lrest =>
          rw [hrest] at hscore
          simp only [Option.some.injEq] at hscore
          subst hscore
          rcases List.mem_cons.mp hmem with heq | hmem'
          · have hhid : hid = rid := by
              have := congrArg Prod.fst heq
              simp at this
              omega
            have hhrv : rv = hrv := by
              have h2 := congrArg Prod.snd heq
              simpa using h2
            subst hhid
            subst hhrv
            have hbb : bh = b := by
              rw [hcbf] at hb
              exact (Option.some.injEq _ _).mp hb
            subst hbb
            rw [hpen]
            exact List.mem_cons_self _ _
          · exact List.mem_cons_of_mem _ (ih lrest hrest hcount hmem' hb)

theorem score_routes_not_mem_of_count4 (u : UserVector) (fb : List ProfileFeedback)
    (rid : ℤ) :
    ∀ (routes : List (ℤ × RouteVector)) (l : List (ℤ × ℝ)),
      score_routes u fb routes = some l →
      4 ≤ (fb.filter (fun f => f.route_id == rid)).length →
      rid ∉ l.map Prod.fst := by
  intro routes
  induction routes with
  | nil =>
    intro l hscore _
    simp only [score_routes, Option.some.injEq] at hscore
    subst hscore
    simp
  | cons head rest ih =>
    obtain ⟨hid, hrv⟩ := head
    intro l hscore hcount
    simp only [score_routes] at hscore
    by_cases hskip :
        FEEDBACK_FILTER_THRESHOLD ≤ (fb.filter (fun f => f.route_id == hid)).length
    · rw [if_pos hskip] at hscore
      exact ih l hscore hcount
    · rw [if_neg hskip] at hscore
      cases hcbf : calculate_cbf_score u hrv with
      | none => rw [hcbf] at hscore; cases hscore
      | some bh =>
        rw [hcbf] at hscore
        cases hrest : score_routes u fb rest with
        | none => rw [hrest] at hscore; cases hscore
        | some lrest =>
          rw [hrest] at hscore
          simp only [Option.some.injEq] at hscore
          subst hscore
          intro hmem
          simp only [List.map_cons, List.mem_cons] at hmem
          rcases hmem with heq | hmem'
          · rw [← heq] at hskip
            simp only [FEEDBACK_FILTER_THRESHOLD] at hskip
            exact hskip hcount
          · exact ih lrest hrest hcount hmem'

theorem rank_core_not_mem_of_count4 (u : UserVector) (fb : List ProfileFeedback)
    (rid : ℤ) (routes : List (ℤ × RouteVector)) (limit : ℤ) (res : List (ℤ × ℝ))
    (hres : get_recommended_routes_core u fb routes limit = some res)
    (hcount : 4 ≤ (fb.filter (fun f => f.route_id == rid)).length) :
    rid ∉ res.map Prod.fst := by
  unfold get_recommended_routes_core at hres
  cases hscore : score_routes u fb routes with
  | none => rw [hscore] at hres; cases hres
  | some l =>
    rw [hscore] at hres
    have hres' : some (python_slice_to limit (sort_by_score_desc l)) = some res := hres
    have hres2 := (Option.some.injEq _ _).mp hres'
    subst hres2
    intro hmem
    obtain ⟨p, hp, hfst⟩ := List.mem_map.mp hmem
    have hp1 : p ∈ sort_by_score_desc l := by
      unfold python_slice_to at hp
      split_ifs at hp
      · exact List.take_subset _ _ hp
      · exact List.take_subset _ _ hp
    have hp2 : p ∈ l := List.mem_mergeSort.mp hp1
    exact score_routes_not_mem_of_count4 u fb rid routes l hscore hcount
      (List.mem_map.mpr ⟨p, hp2, hfst⟩)

theorem penalty_antitone_of_count_le (rid : ℤ) (fb fb' : List ProfileFeedback)
    (hle : (fb.filter (fun f => f.route_id == rid)).length ≤
      (fb'.filter (fun f => f.route_id == rid)).length) :
    calculate_feedback_penalty rid fb' ≤ calculate_feedback_penalty rid fb := by
  rw [penalty_eq_of_count, penalty_eq_of_count]
  split_ifs <;> first | omega | norm_num

/-! ## Claim theorems -/

/-- C1: the penalty multiplier is 1.0 for 0 matching feedback entries, 0.5 for
exactly 1, 0.1 for exactly 2 and 0.01 for 3 or more, hence non-increasing in
the count; in a personalized ranking call a route with exactly 3 matching
entries is still scored, with multiplier 0.01, while a route with 4 or more
matching entries is dropped before scoring and absent from the results. -/
theorem claim_C1_penalty_schedule_and_exclusion :
    (∀ (rid : ℤ) (fb : List ProfileFeedback),
      ((fb.filter (fun f => f.route_id == rid)).length = 0 →
        calculate_feedback_penalty rid fb = 1) ∧
      ((fb.filter (fun f => f.route_id == rid)).length = 1 →
        calculate_feedback_penalty rid fb = 1/2) ∧
      ((fb.filter (fun f => f.route_id == rid)).length = 2 →
        calculate_feedback_penalty rid fb = 1/10) ∧
      (3 ≤ (fb.filter (fun f => f.route_id == rid)).length →
        calculate_feedback_penalty rid fb = 1/100)) ∧
    (∀ (rid : ℤ) (fb fb' : List ProfileFeedback),
      (fb.filter (fun f => f.route_id == rid)).length ≤
        (fb'.filter (fun f => f.route_id == rid)).length →
      calculate_feedback_penalty rid fb' ≤ calculate_feedback_penalty rid fb) ∧
    (∀ (u : UserVector) (fb : List ProfileFeedback) (routes : List (ℤ × RouteVector))
        (rid : ℤ) (rv : RouteVector) (l : List (ℤ × ℝ)) (b : ℝ),
      score_routes u fb routes = some l →
      (fb.filter (fun f => f.route_id == rid)).length = 3 →
      (rid, rv) ∈ routes →
      calculate_cbf_score u rv = some b →
      calculate_feedback_penalty rid fb = 1/100 ∧
        (rid, b * ((1/100 : ℚ) : ℝ)) ∈ l) ∧
    (∀ (u : UserVector) (fb : List ProfileFeedback) (routes : List (ℤ × RouteVector))
        (rid : ℤ) (l : List (ℤ × ℝ)),
      score_routes u fb routes = some l →
      4 ≤ (fb.filter (fun f => f.route_id == rid)).length →
      rid ∉ l.map Prod.fst) ∧
    (∀ (u : UserVector) (fb : List ProfileFeedback) (routes : List (ℤ × RouteVector))
        (rid : ℤ) (limit : ℤ) (res : List (ℤ × ℝ)),
      get_recommended_routes_core u fb routes limit = some res →
      4 ≤ (fb.filter (fun f => f.route_id == rid)).length →
      rid ∉ res.map Prod.fst) := by
  refine ⟨?_, ?_, ?_, ?_, ?_⟩
  · intro rid fb
    refine ⟨?_, ?_, ?_, ?_⟩ <;> intro hc <;> rw [penalty_eq_of_count] <;>
      split_ifs <;> first | omega | norm_num
  · exact penalty_antitone_of_count_le
  · intro u fb routes rid rv l b hscore hcount hmem hb
    refine ⟨?_, score_routes_mem_of_count3 u fb rid rv b routes l hscore hcount hmem hb⟩
    rw [penalty_eq_of_count, hcount]
    norm_num
  · intro u fb routes rid l hscore hcount
    exact score_routes_not_mem_of_count4 u fb rid routes l hscore hcount
  · intro u fb routes rid limit res hres hcount
    exact rank_core_not_mem_of_count4 u fb rid routes limit res hres hcount

theorem min_abs_dist_eq (mn mx v : ℚ) (hmm : mn ≤ mx) (h : ¬(mn ≤ v ∧ v ≤ mx)) :
    min (|v - mn|) (|v - mx|) = (if v < mn then mn - v else v - mx) := by
  by_cases hv : v < mn
  · rw [if_pos hv]
    rw [abs_of_neg (by linarith : v - mn < 0), abs_of_nonpos (by linarith : v - mx ≤ 0)]
    rw [min_eq_left (by linarith)]
    ring
  · rw [if_neg hv]
    push_neg at h hv
    have hmxv : mx < v := h hv
    rw [abs_of_nonneg (by linarith : (0:ℚ) ≤ v - mn), abs_of_pos (by linarith : 0 < v - mx)]
    exact min_eq_right (by linarith)

/-- C2: for a range with at least two bounds, the difficulty score lies in
[0,1], equals 1.0 exactly when `min ≤ value ≤ max`, equals `0.5 ^ d` with `d`
the distance to the nearer bound when the value is outside, and is
non-increasing in that distance; a range with fewer than two bounds gives the
neutral 0.5. -/
theorem claim_C2_difficulty_score_spec :
    (∀ (r : List ℚ) (v : ℚ), r.length < 2 → calculate_difficulty_score r v = 1/2) ∧
    (∀ (mn mx v : ℚ) (rest : List ℚ),
      (0 ≤ calculate_difficulty_score (mn :: mx :: rest) v ∧
        calculate_difficulty_score (mn :: mx :: rest) v ≤ 1) ∧
      (calculate_difficulty_score (mn :: mx :: rest) v = 1 ↔ mn ≤ v ∧ v ≤ mx) ∧
      (mn ≤ mx → ¬(mn ≤ v ∧ v ≤ mx) →
        calculate_difficulty_score (mn :: mx :: rest) v =
          (1/2 : ℝ) ^ (((min (|v - mn|) (|v - mx|) : ℚ)) : ℝ)) ∧
      (mn ≤ mx → ∀ v₁ v₂ : ℚ, ¬(mn ≤ v₁ ∧ v₁ ≤ mx) → ¬(mn ≤ v₂ ∧ v₂ ≤ mx) →
        min (|v₁ - mn|) (|v₁ - mx|) ≤ min (|v₂ - mn|) (|v₂ - mx|) →
        calculate_difficulty_score (mn :: mx :: rest) v₂ ≤
          calculate_difficulty_score (mn :: mx :: rest) v₁)) := by
  constructor
  · exact difficulty_score_short
  · intro mn mx v rest
    refine ⟨⟨difficulty_score_nonneg _ _, difficulty_score_le_one _ _⟩, ?_, ?_, ?_⟩
    · constructor
      · intro h1
        by_contra hout
        exact absurd h1 (difficulty_score_outside_lt_one mn mx v rest hout).ne
      · exact difficulty_score_inside mn mx v rest
    · intro hmm hout
      rw [difficulty_score_outside mn mx v rest hout, min_abs_dist_eq mn mx v hmm hout]
    · intro hmm v₁ v₂ h₁ h₂ hle
      rw [difficulty_score_outside mn mx v₁ rest h₁,
        difficulty_score_outside mn mx v₂ rest h₂,
        ← min_abs_dist_eq mn mx v₁ hmm h₁, ← min_abs_dist_eq mn mx v₂ hmm h₂]
      refine Real.rpow_le_rpow_of_exponent_ge (by norm_num) (by norm_num) ?_
      exact_mod_cast hle

/-- C3, counterexample: with `max_km = 0` and a value outside the range, the
distance scorer does not return a result — the division `(value - max)/max`
raises `ZeroDivisionError` — refuting the claim that this input is handled
and no path raises. -/
theorem claim_C3_counterexample : calculate_distance_score 0 0 5 = none := by
  rw [distance_score_none_iff]
  norm_num

/-- C3 as amended: the difficulty and tag scorers are total (they always
return an in-range score); the distance scorer returns a result for exactly
those inputs that do not have `max_km = 0` together with a nonzero
`value_km` outside `[min_km, max_km]` — on that remaining input the division
by `user_max_km` raises. -/
theorem claim_C3_amended_scorer_totality :
    (∀ (r : List ℚ) (v : ℚ),
      0 ≤ calculate_difficulty_score r v ∧ calculate_difficulty_score r v ≤ 1) ∧
    (∀ (a b : List String),
      0 ≤ calculate_tag_score a b ∧ calculate_tag_score a b ≤ 1) ∧
    (∀ (mn mx v : ℚ),
      (calculate_distance_score mn mx v).isSome ↔
        ¬(mx = 0 ∧ v ≠ 0 ∧ ¬(mn ≤ v ∧ v ≤ mx))) := by
  refine ⟨?_, ?_, ?_⟩
  · intro r v
    exact ⟨difficulty_score_nonneg r v, difficulty_score_le_one r v⟩
  · exact tag_score_bounds
  · intro mn mx v
    rw [Option.isSome_iff_ne_none, not_iff_not]
    exact distance_score_none_iff mn mx v

/-- C10: a missing `difficulty_range` is scored as `[0, 3]`, a missing
`min_distance_km` as `0.0`, a missing `max_distance_km` as `100.0`, a missing
`preferred_tags` as the empty list, and the aggregate scorer is defined on a
vector with all fields missing. -/
theorem claim_C10_cbf_defaults (u : UserVector) (rv : RouteVector) :
    (u.difficulty_range = none →
      calculate_cbf_score u rv = calculate_cbf_score
        ⟨some [0, 3], u.min_distance_km, u.max_distance_km, u.preferred_tags⟩ rv) ∧
    (u.min_distance_km = none →
      calculate_cbf_score u rv = calculate_cbf_score
        ⟨u.difficulty_range, some 0, u.max_distance_km, u.preferred_tags⟩ rv) ∧
    (u.max_distance_km = none →
      calculate_cbf_score u rv = calculate_cbf_score
        ⟨u.difficulty_range, u.min_distance_km, some 100, u.preferred_tags⟩ rv) ∧
    (u.preferred_tags = none →
      calculate_cbf_score u rv = calculate_cbf_score
        ⟨u.difficulty_range, u.min_distance_km, u.max_distance_km, some []⟩ rv) ∧
    (calculate_cbf_score ⟨none, none, none, none⟩ rv).isSome := by
  obtain ⟨dr, mnd, mxd, pt⟩ := u
  refine ⟨?_, ?_, ?_, ?_, ?_⟩
  · intro h
    subst h
    rfl
  · intro h
    subst h
    rfl
  · intro h
    subst h
    rfl
  · intro h
    subst h
    rfl
  · refine cbf_score_isSome _ rv ?_
    norm_num

theorem score_weights_eval :
    SCORE_WEIGHTS "difficulty" = 2/5 ∧ SCORE_WEIGHTS "distance" = 3/10 ∧
      SCORE_WEIGHTS "tags" = 3/10 := by
  refine ⟨?_, ?_, ?_⟩
  · unfold SCORE_WEIGHTS
    rw [if_pos rfl]
  · unfold SCORE_WEIGHTS
    rw [if_neg (by decide), if_pos rfl]
  · unfold SCORE_WEIGHTS
    rw [if_neg (by decide), if_neg (by decide), if_pos rfl]

/-- C7, counterexample: the aggregate score is not always in [0,1] — for the
stored preference `max_distance_km = -1` (and default `min_distance_km = 0`)
and a route of length 10, the distance ratio is negative and
`0.7 ** ratio > 50`, so the weighted sum exceeds 1. -/
theorem claim_C7_counterexample :
    1 < (calculate_cbf_score ⟨some [0, 3], none, some (-1), some []⟩
      ⟨1, 10, []⟩).getD 0 := by
  have hpow : (0.7 : ℝ) ^ ((-11 : ℝ)) = ((0.7 : ℝ) ^ (11 : ℕ))⁻¹ := by
    have h1 : ((-11 : ℝ)) = ((-11 : ℤ) : ℝ) := by norm_num
    rw [h1, Real.rpow_intCast]
    have h2 : ((-11 : ℤ)) = -(11 : ℤ) := by norm_num
    rw [h2, zpow_neg]
    norm_num
  have h4 : (0 : ℝ) < (0.7 : ℝ) ^ (11 : ℕ) := by positivity
  have h3 : (0.7 : ℝ) ^ (11 : ℕ) < 1/50 := by norm_num
  have hbound : (50 : ℝ) < (0.7 : ℝ) ^ ((-11 : ℝ)) := by
    rw [hpow]
    calc (50 : ℝ) = (1/50 : ℝ)⁻¹ := by norm_num
    _ < ((0.7 : ℝ) ^ (11 : ℕ))⁻¹ := inv_strictAnti₀ h4 h3
  have hdist : calculate_distance_score 0 (-1) 10 =
      some (max 0 ((0.7 : ℝ) ^ ((-11 : ℝ)))) := by
    unfold calculate_distance_score
    rw [if_neg (by norm_num : ¬((10 : ℚ) = 0))]
    rw [if_neg (by norm_num : ¬((0 : ℚ) ≤ 10 ∧ (10 : ℚ) ≤ -1))]
    rw [if_neg (by norm_num : ¬((-1 : ℚ) = 0))]
    simp only
    rw [if_neg (by norm_num : ¬((10 : ℚ) < 0))]
    have harg : (((10 - (-1)) / (-1) : ℚ) : ℝ) = (-11 : ℝ) := by norm_num
    rw [harg]
  have hdiff : calculate_difficulty_score [0, 3] 1 = 1 :=
    difficulty_score_inside 0 3 1 [] (by norm_num)
  have htag : calculate_tag_score [] [] = 1/2 := by
    norm_num [calculate_tag_score]
  have hval : calculate_cbf_score ⟨some [0, 3], none, some (-1), some []⟩
      ⟨1, 10, []⟩ =
      some (((SCORE_WEIGHTS "difficulty" : ℚ) : ℝ) * 1
        + ((SCORE_WEIGHTS "distance" : ℚ) : ℝ) * (max 0 ((0.7 : ℝ) ^ ((-11 : ℝ))))
        + ((SCORE_WEIGHTS "tags" : ℚ) : ℝ) * ((1/2 : ℚ) : ℝ)) := by
    unfold calculate_cbf_score
    simp only [Option.getD_none, Option.getD_some]
    rw [hdist]
    simp only
    rw [hdiff, htag]
  rw [hval]
  simp only [Option.getD_some]
  rw [score_weights_eval.1, score_weights_eval.2.1, score_weights_eval.2.2]
  have hmax : max 0 ((0.7 : ℝ) ^ ((-11 : ℝ))) = (0.7 : ℝ) ^ ((-11 : ℝ)) :=
    max_eq_right (by linarith)
  rw [hmax]
  have hc1 : ((2/5 : ℚ) : ℝ) = 2/5 := by norm_num
  have hc2 : ((3/10 : ℚ) : ℝ) = 3/10 := by norm_num
  have hc3 : ((1/2 : ℚ) : ℝ) = 1/2 := by norm_num
  rw [hc1, hc2, hc3]
  linarith

/-- C7 as amended: the three weights are fixed at 0.4/0.3/0.3 and sum to 1;
for every preference vector whose effective `max_distance_km` is positive
(the stored value, or the default 100.0 when absent) the aggregate score is
defined and lies in [0,1]; and the quoted scenario evaluates to exactly
0.4 + 0.3 + 0.15 = 0.85.  (Without the positivity proviso the score can
exceed 1, see the counterexample.) -/
theorem claim_C7_amended_weighted_score :
    (SCORE_WEIGHTS "difficulty" + SCORE_WEIGHTS "distance" + SCORE_WEIGHTS "tags"
      = 1) ∧
    (∀ (u : UserVector) (rv : RouteVector),
      0 < u.max_distance_km.getD 100 →
      (calculate_cbf_score u rv).isSome ∧
      ∀ s, calculate_cbf_score u rv = some s → 0 ≤ s ∧ s ≤ 1) ∧
    (calculate_cbf_score ⟨some [1, 2], some 5, some 20, some ["forest"]⟩
      ⟨2, 15, ["forest", "scenic"]⟩ = some 0.85) := by
  refine ⟨?_, ?_, ?_⟩
  · rw [score_weights_eval.1, score_weights_eval.2.1, score_weights_eval.2.2]
    norm_num
  · intro u rv hm
    exact ⟨cbf_score_isSome u rv hm.ne', fun s hs => cbf_score_bounds u rv s hm hs⟩
  · have hcard1 : (((["forest"].map str_lower).toFinset ∩
        ((["forest", "scenic"].map str_lower).toFinset)).card) = 1 := by decide
    have hcard2 : (((["forest"].map str_lower).toFinset ∪
        ((["forest", "scenic"].map str_lower).toFinset)).card) = 2 := by decide
    have htag : calculate_tag_score ["forest"] ["forest", "scenic"] = 1/2 := by
      unfold calculate_tag_score
      rw [if_neg (by decide), if_neg (by decide)]
      show (if (((["forest"].map str_lower).toFinset ∪
          ((["forest", "scenic"].map str_lower).toFinset)).card) = 0 then (0 : ℚ)
        else ((((["forest"].map str_lower).toFinset ∩
          ((["forest", "scenic"].map str_lower).toFinset)).card : ℚ) /
          ((((["forest"].map str_lower).toFinset ∪
          ((["forest", "scenic"].map str_lower).toFinset)).card : ℚ)))) = 1/2
      rw [hcard1, hcard2]
      norm_num
    have hdist : calculate_distance_score 5 20 15 = some 1 := by
      unfold calculate_distance_score
      rw [if_neg (by norm_num : ¬((15 : ℚ) = 0)),
        if_pos (⟨by norm_num, by norm_num⟩ : ((5 : ℚ) ≤ 15 ∧ (15 : ℚ) ≤ 20))]
    have hdiff : calculate_difficulty_score [1, 2] 2 = 1 :=
      difficulty_score_inside 1 2 2 [] ⟨by norm_num, le_refl 2⟩
    have hval : calculate_cbf_score ⟨some [1, 2], some 5, some 20, some ["forest"]⟩
        ⟨2, 15, ["forest", "scenic"]⟩ =
        some (((SCORE_WEIGHTS "difficulty" : ℚ) : ℝ) * 1
          + ((SCORE_WEIGHTS "distance" : ℚ) : ℝ) * 1
          + ((SCORE_WEIGHTS "tags" : ℚ) : ℝ) * ((1/2 : ℚ) : ℝ)) := by
      unfold calculate_cbf_score
      simp only [Option.getD_some]
      rw [hdist]
      simp only
      rw [hdiff, htag]
    rw [hval]
    rw [score_weights_eval.1, score_weights_eval.2.1, score_weights_eval.2.2]
    norm_num

/-- C4, counterexample: a non-list JSON payload (here the number 42) is kept
as the tags value, not replaced by an empty tag set; and a list entry
`{"name": 5}` whose name is not a string makes extraction raise
(`AttributeError` from `.lower()`, not caught by the `except` clause) instead
of degrading to empty tags. -/
theorem claim_C4_counterexample :
    extract_route_vector ⟨7, "x", some 2, some 3000,
        TagPayload.parsed (Json.num 42)⟩ = some ⟨2, 3, Json.num 42⟩ ∧
    Json.num 42 ≠ Json.arr [] ∧
    extract_route_vector ⟨8, "x", none, none,
        TagPayload.parsed (Json.arr [Json.obj [("name", Json.num 5)]])⟩ = none := by
  refine ⟨?_, ?_, ?_⟩
  · unfold extract_route_vector
    norm_num
  · intro h
    cases h
  · rfl

theorem extract_route_vector_fields (rid : ℤ) (cat : String)
    (diff len0 : Option ℚ) (payload : TagPayload) (v : RawRouteVector)
    (hv : extract_route_vector ⟨rid, cat, diff, len0, payload⟩ = some v) :
    v.difficulty = diff.getD 0 ∧
    (len0 = none → v.length_km = 0) ∧
    (∀ m, len0 = some m → m ≠ 0 → v.length_km = m / 1000) := by
  cases payload with
  | absent =>
    simp only [extract_route_vector, Option.some.injEq] at hv
    subst hv
    refine ⟨rfl, ?_, ?_⟩
    · intro h
      subst h
      rfl
    · intro m h hm
      subst h
      show (if m ≠ 0 then m / 1000 else 0) = m / 1000
      rw [if_pos hm]
  | unparseable =>
    simp only [extract_route_vector, Option.some.injEq] at hv
    subst hv
    refine ⟨rfl, ?_, ?_⟩
    · intro h
      subst h
      rfl
    · intro m h hm
      subst h
      show (if m ≠ 0 then m / 1000 else 0) = m / 1000
      rw [if_pos hm]
  | parsed w =>
    cases w with
    | arr l =>
      simp only [extract_route_vector] at hv
      cases hflat : flatten_tags l with
      | none => rw [hflat] at hv; cases hv
      | some ts =>
        rw [hflat] at hv
        simp only [Option.map_some', Option.some.injEq] at hv
        subst hv
        refine ⟨rfl, ?_, ?_⟩
        · intro h
          subst h
          rfl
        · intro m h hm
          subst h
          show (if m ≠ 0 then m / 1000 else 0) = m / 1000
          rw [if_pos hm]
    | null =>
      simp only [extract_route_vector, Option.some.injEq] at hv
      subst hv
      refine ⟨rfl, ?_, ?_⟩
      · intro h
        subst h
        rfl
      · intro m h hm
        subst h
        show (if m ≠ 0 then m / 1000 else 0) = m / 1000
        rw [if_pos hm]
    | bool b =>
      simp only [extract_route_vector, Option.some.injEq] at hv
      subst hv
      refine ⟨rfl, ?_, ?_⟩
      · intro h
        subst h
        rfl
      · intro m h hm
        subst h
        show (if m ≠ 0 then m / 1000 else 0) = m / 1000
        rw [if_pos hm]
    | num n =>
      simp only [extract_route_vector, Option.some.injEq] at hv
      subst hv
      refine ⟨rfl, ?_, ?_⟩
      · intro h
        subst h
        rfl
      · intro m h hm
        subst h
        show (if m ≠ 0 then m / 1000 else 0) = m / 1000
        rw [if_pos hm]
    | str s =>
      simp only [extract_route_vector, Option.some.injEq] at hv
      subst hv
      refine ⟨rfl, ?_, ?_⟩
      · intro h
        subst h
        rfl
      · intro m h hm
        subst h
        show (if m ≠ 0 then m / 1000 else 0) = m / 1000
        rw [if_pos hm]
    | obj fields =>
      simp only [extract_route_vector, Option.some.injEq] at hv
      subst hv
      refine ⟨rfl, ?_, ?_⟩
      · intro h
        subst h
        rfl
      · intro m h hm
        subst h
        show (if m ≠ 0 then m / 1000 else 0) = m / 1000
        rw [if_pos hm]

theorem extract_route_vector_tags (rid : ℤ) (cat : String)
    (diff len0 : Option ℚ) (payload : TagPayload) (v : RawRouteVector)
    (hv : extract_route_vector ⟨rid, cat, diff, len0, payload⟩ = some v) :
    (payload = TagPayload.absent → v.tags = Json.arr []) ∧
    (payload = TagPayload.unparseable → v.tags = Json.arr []) ∧
    (∀ w, payload = TagPayload.parsed w → (∀ l, w ≠ Json.arr l) → v.tags = w) := by
  cases payload with
  | absent =>
    simp only [extract_route_vector, Option.some.injEq] at hv
    subst hv
    refine ⟨?_, ?_, ?_⟩
    · intro _
      rfl
    · intro h
      cases h
    · intro w h
      cases h
  | unparseable =>
    simp only [extract_route_vector, Option.some.injEq] at hv
    subst hv
    refine ⟨?_, ?_, ?_⟩
    · intro h
      cases h
    · intro _
      rfl
    · intro w h
      cases h
  | parsed w =>
    refine ⟨?_, ?_, ?_⟩
    · intro h
      cases h
    · intro h
      cases h
    · intro w' hw' hne
      have hww : w = w' := by
        cases hw'
        rfl
      subst hww
      cases w with
      | arr l => exact absurd rfl (hne l)
      | null =>
        simp only [extract_route_vector, Option.some.injEq] at hv
        subst hv
        rfl
      | bool b =>
        simp only [extract_route_vector, Option.some.injEq] at hv
        subst hv
        rfl
      | num n =>
        simp only [extract_route_vector, Option.some.injEq] at hv
        subst hv
        rfl
      | str s =>
        simp only [extract_route_vector, Option.some.injEq] at hv
        subst hv
        rfl
      | obj fields =>
        simp only [extract_route_vector, Option.some.injEq] at hv
        subst hv
        rfl

/-- C4 as amended: extraction defaults a missing difficulty to 0 and a
missing length to 0.0 (otherwise metres are divided by 1000); an absent or
unparseable payload yields an empty tag list; a parsed JSON list is flattened
with tag names lower-cased and entries that are neither strings nor objects
with a name skipped — but a parsed payload that is not a list is kept
unchanged as the tags value, and an object entry whose `"name"` value is not
a string makes extraction raise. -/
theorem claim_C4_amended_extraction (route : Route) :
    (∀ v, extract_route_vector route = some v →
      v.difficulty = route.difficulty.getD 0 ∧
      (route.length_meters = none → v.length_km = 0) ∧
      (∀ m, route.length_meters = some m → m ≠ 0 → v.length_km = m / 1000) ∧
      (route.tags_json = TagPayload.absent → v.tags = Json.arr []) ∧
      (route.tags_json = TagPayload.unparseable → v.tags = Json.arr []) ∧
      (∀ w, route.tags_json = TagPayload.parsed w → (∀ l, w ≠ Json.arr l) →
        v.tags = w)) ∧
    (∀ l ts, route.tags_json = TagPayload.parsed (Json.arr l) →
      flatten_tags l = some ts →
      ∃ v, extract_route_vector route = some v ∧
        v.tags = Json.arr (ts.map Json.str)) ∧
    (∀ l, route.tags_json = TagPayload.parsed (Json.arr l) →
      flatten_tags l = none → extract_route_vector route = none) ∧
    (∀ s rest, flatten_tags (Json.str s :: rest) =
      (flatten_tags rest).map (fun ts => str_lower s :: ts)) ∧
    (∀ fields rest s, fields.lookup "name" = some (Json.str s) →
      flatten_tags (Json.obj fields :: rest) =
        (flatten_tags rest).map (fun ts => str_lower s :: ts)) ∧
    (∀ fields rest x, fields.lookup "name" = some x → (∀ s, x ≠ Json.str s) →
      flatten_tags (Json.obj fields :: rest) = none) ∧
    (∀ n rest, flatten_tags (Json.num n :: rest) = flatten_tags rest) := by
  obtain ⟨rid, cat, diff, len0, payload⟩ := route
  refine ⟨?_, ?_, ?_, ?_, ?_, ?_, ?_⟩
  · intro v hv
    have hfields := extract_route_vector_fields rid cat diff len0 payload v hv
    have htags := extract_route_vector_tags rid cat diff len0 payload v hv
    exact ⟨hfields.1, hfields.2.1, hfields.2.2, htags.1, htags.2.1, htags.2.2⟩
  · intro l ts hpayload hflat
    have hp : payload = TagPayload.parsed (Json.arr l) := hpayload
    subst hp
    simp only [extract_route_vector]
    rw [hflat]
    exact ⟨_, rfl, rfl⟩
  · intro l hpayload hflat
    have hp : payload = TagPayload.parsed (Json.arr l) := hpayload
    subst hp
    simp only [extract_route_vector]
    rw [hflat]
    rfl
  · intro s rest
    rfl
  · intro fields rest s hname
    simp only [flatten_tags]
    rw [hname]
  · intro fields rest x hname hnstr
    simp only [flatten_tags]
    rw [hname]
    cases x with
    | str s => exact absurd rfl (hnstr s)
    | null => rfl
    | bool b => rfl
    | num n => rfl
    | arr l => rfl
    | obj f => rfl
  · intro n rest
    rfl

theorem python_slice_to_zero (xs : List (ℤ × ℝ)) : python_slice_to 0 xs = [] := by
  simp [python_slice_to]

/-- C8, counterexample: a ranking call with an unknown category key or a
non-positive limit is not rejected — the unknown category is silently ignored
(the candidate list is returned unfiltered) and `limit = 0` produces a normal,
empty result instead of an error. -/
theorem claim_C8_counterexample :
    filter_routes_by_category (some "swimming")
        [⟨1, "Hiking trail", none, none, TagPayload.absent⟩] =
      [⟨1, "Hiking trail", none, none, TagPayload.absent⟩] ∧
    get_recommended_routes_core ⟨none, none, none, none⟩ [] [(1, ⟨1, 10, []⟩)] 0 =
      some [] := by
  constructor
  · rfl
  · obtain ⟨l, hl⟩ := Option.isSome_iff_exists.mp
      (score_routes_isSome ⟨none, none, none, none⟩ [] (by norm_num) [(1, ⟨1, 10, []⟩)])
    unfold get_recommended_routes_core
    rw [hl]
    simp only [Option.map_some', Option.some.injEq]
    exact python_slice_to_zero _

/-- C8 as amended: the engine does not reject contract-violating inputs.  A
category that is not a key of `CATEGORY_MAPPING` (or the falsy empty string)
leaves the candidate list unfiltered, and a call with `limit = 0` returns a
normal empty result rather than an error. -/
theorem claim_C8_amended_no_rejection :
    (∀ (c : String) (routes : List Route), c ≠ "" →
      CATEGORY_MAPPING.lookup c = none →
      filter_routes_by_category (some c) routes = routes) ∧
    (∀ routes : List Route, filter_routes_by_category (some "") routes = routes) ∧
    (∀ (u : UserVector) (fb : List ProfileFeedback)
        (routes : List (ℤ × RouteVector)),
      u.max_distance_km.getD 100 ≠ 0 →
      get_recommended_routes_core u fb routes 0 = some []) := by
  refine ⟨?_, ?_, ?_⟩
  · intro c routes hc hlookup
    show (if c ≠ "" then
        match CATEGORY_MAPPING.lookup c with
        | some category_names =>
          routes.filter (fun r => category_names.contains r.category_name)
        | none => routes
      else routes) = routes
    rw [if_pos hc, hlookup]
  · intro routes
    show (if ("" : String) ≠ "" then
        match CATEGORY_MAPPING.lookup "" with
        | some category_names =>
          routes.filter (fun r => category_names.contains r.category_name)
        | none => routes
      else routes) = routes
    rw [if_neg (by simp)]
  · intro u fb routes hm
    obtain ⟨l, hl⟩ := Option.isSome_iff_exists.mp (score_routes_isSome u fb hm routes)
    unfold get_recommended_routes_core
    rw [hl]
    simp only [Option.map_some', Option.some.injEq]
    exact python_slice_to_zero _

/-! ## Heap preservation infrastructure -/

/-- `h` evolved from `h0` without touching any object that already existed in
`h0`: lengths only grow and all old cells are unchanged. -/
def HeapExtends (h0 h : Heap) : Prop :=
  h0.qlists.length ≤ h.qlists.length ∧ h0.slists.length ≤ h.slists.length ∧
  (∀ i, i < h0.qlists.length → h.qlists[i]? = h0.qlists[i]?) ∧
  (∀ i, i < h0.slists.length → h.slists[i]? = h0.slists[i]?)

theorem HeapExtends.refl (h : Heap) : HeapExtends h h :=
  ⟨le_refl _, le_refl _, fun _ _ => rfl, fun _ _ => rfl⟩

theorem HeapExtends.trans {h0 h1 h2 : Heap} (a : HeapExtends h0 h1)
    (b : HeapExtends h1 h2) : HeapExtends h0 h2 := by
  obtain ⟨aq, as', aqe, ase⟩ := a
  obtain ⟨bq, bs, bqe, bse⟩ := b
  refine ⟨le_trans aq bq, le_trans as' bs, ?_, ?_⟩
  · intro i hi
    rw [bqe i (lt_of_lt_of_le hi aq), aqe i hi]
  · intro i hi
    rw [bse i (lt_of_lt_of_le hi as'), ase i hi]

theorem allocQ_extends (h : Heap) (l : List ℚ) : HeapExtends h (h.allocQ l).1 := by
  refine ⟨by simp [Heap.allocQ], le_refl _, ?_, fun _ _ => rfl⟩
  intro i hi
  show (h.qlists ++ [l])[i]? = h.qlists[i]?
  rw [List.getElem?_append, if_pos hi]

theorem allocS_extends (h : Heap) (l : List String) :
    HeapExtends h (h.allocS l).1 := by
  refine ⟨le_refl _, by simp [Heap.allocS], fun _ _ => rfl, ?_⟩
  intro i hi
  show (h.slists ++ [l])[i]? = h.slists[i]?
  rw [List.getElem?_append, if_pos hi]

theorem setQElem_extends {h0 h : Heap} (hext : HeapExtends h0 h) (r : Ref)
    (i : ℕ) (v : ℚ) (hr : h0.qlists.length ≤ r) :
    HeapExtends h0 (h.setQElem r i v) := by
  obtain ⟨hq, hs, hqe, hse⟩ := hext
  refine ⟨by simpa [Heap.setQElem] using hq, hs, ?_, hse⟩
  intro j hj
  have hrj : r ≠ j := ne_of_gt (lt_of_lt_of_le hj hr)
  show (h.qlists.set r ((h.getQ r).set i v))[j]? = h0.qlists[j]?
  rw [List.getElem?_set_ne hrj, hqe j hj]

theorem setQElem_length (h : Heap) (r : Ref) (i : ℕ) (v : ℚ) :
    (h.setQElem r i v).qlists.length = h.qlists.length := by
  simp [Heap.setQElem]

/-- Old numeric objects read the same in an extended heap. -/
theorem getQ_of_extends {h0 h : Heap} (hext : HeapExtends h0 h) (r : Ref)
    (hr : r < h0.qlists.length) : h.getQ r = h0.getQ r := by
  unfold Heap.getQ
  rw [hext.2.2.1 r hr]

/-- Old string objects read the same in an extended heap. -/
theorem getS_of_extends {h0 h : Heap} (hext : HeapExtends h0 h) (r : Ref)
    (hr : r < h0.slists.length) : h.getS r = h0.getS r := by
  unfold Heap.getS
  rw [hext.2.2.2 r hr]

/-- Reading the freshly allocated numeric list gives back its contents. -/
theorem getQ_allocQ_fresh (h : Heap) (l : List ℚ) :
    (h.allocQ l).1.getQ (h.allocQ l).2 = l := by
  show ((h.qlists ++ [l])[h.qlists.length]?).getD [] = l
  simp

/-- Reading the freshly allocated string list gives back its contents. -/
theorem getS_allocS_fresh (h : Heap) (l : List String) :
    (h.allocS l).1.getS (h.allocS l).2 = l := by
  show ((h.slists ++ [l])[h.slists.length]?).getD [] = l
  simp

theorem getQ_allocS (h : Heap) (l : List String) (r : Ref) :
    (h.allocS l).1.getQ r = h.getQ r := rfl

theorem getS_allocQ (h : Heap) (l : List ℚ) (r : Ref) :
    (h.allocQ l).1.getS r = h.getS r := rfl

/-- Writing an element of the list at `r` and reading `r` back. -/
theorem getQ_setQElem_self (h : Heap) (r : Ref) (i : ℕ) (v : ℚ) :
    (h.setQElem r i v).getQ r = (h.getQ r).set i v := by
  unfold Heap.setQElem Heap.getQ
  by_cases hr : r < h.qlists.length
  · simp [hr]
  · push_neg at hr
    rw [List.set_eq_of_length_le (by simpa using hr)]
    rw [List.getElem?_eq_none (by simpa using hr)]
    simp

/-- One feedback iteration only allocates fresh objects or writes into the
working difficulty-range copy (which is at or above `h0`); it never touches
an object of `h0`, and it never changes the difficulty-range ref. -/
theorem adjust_step_extends (route_vectors : ℤ → Option RouteVectorObj)
    (min_d : ℚ) (h0 h : Heap) (rref : Ref) (maxd : ℚ) (tref : Ref)
    (f : ProfileFeedback) (hext : HeapExtends h0 h)
    (hr : h0.qlists.length ≤ rref) :
    HeapExtends h0 (adjust_step route_vectors min_d h rref maxd tref f).1 ∧
    ∀ s, (adjust_step route_vectors min_d h rref maxd tref f).2 = some s →
      s.1 = rref := by
  unfold adjust_step
  cases route_vectors f.route_id with
  | none =>
    exact ⟨hext, fun s hs => by cases hs; rfl⟩
  | some rv =>
    simp only
    split_ifs with h1 h2 h3 h4
    · cases hg0 : (h.getQ rref)[0]? with
      | none => exact ⟨hext, fun s hs => by cases hs⟩
      | some b0 =>
        cases hg1 : (h.getQ rref)[1]? with
        | none => exact ⟨hext, fun s hs => by cases hs⟩
        | some b1 =>
          refine ⟨?_, fun s hs => by cases hs; rfl⟩
          exact setQElem_extends (setQElem_extends hext rref 0 _ hr) rref 1 _ hr
    · cases hg0 : (h.getQ rref)[0]? with
      | none => exact ⟨hext, fun s hs => by cases hs⟩
      | some b0 =>
        cases hg1 : (h.getQ rref)[1]? with
        | none => exact ⟨hext, fun s hs => by cases hs⟩
        | some b1 =>
          refine ⟨?_, fun s hs => by cases hs; rfl⟩
          exact setQElem_extends (setQElem_extends hext rref 0 _ hr) rref 1 _ hr
    · exact ⟨hext, fun s hs => by cases hs; rfl⟩
    · exact ⟨hext.trans (allocS_extends h _), fun s hs => by cases hs; rfl⟩
    · exact ⟨hext, fun s hs => by cases hs; rfl⟩

/-- The feedback loop never touches an object that existed in `h0`, provided
the working difficulty-range ref is at or above `h0`. -/
theorem adjust_loop_extends (route_vectors : ℤ → Option RouteVectorObj)
    (min_d : ℚ) :
    ∀ (fb : List ProfileFeedback) (h0 h : Heap) (rref : Ref) (maxd : ℚ)
      (tref : Ref), HeapExtends h0 h → h0.qlists.length ≤ rref →
      HeapExtends h0
        (adjust_loop route_vectors min_d fb h rref maxd tref).1 := by
  intro fb
  induction fb with
  | nil =>
    intro h0 h rref maxd tref hext _
    exact hext
  | cons f rest ih =>
    intro h0 h rref maxd tref hext hr
    have hstep := adjust_step_extends route_vectors min_d h0 h rref maxd tref f
      hext hr
    simp only [adjust_loop]
    cases hs : adjust_step route_vectors min_d h rref maxd tref f with
    | mk h' res =>
      cases res with
      | none =>
        have := hstep.1
        rw [hs] at this
        exact this
      | some s =>
        obtain ⟨r', m', t'⟩ := s
        have hrr : r' = rref := by
          have := hstep.2 (r', m', t')
          rw [hs] at this
          exact this rfl
        have hext' : HeapExtends h0 h' := by
          have := hstep.1
          rw [hs] at this
          exact this
        subst hrr
        exact ih h0 h' r' m' t' hext' hr

/-- The normalization prologue: it only allocates, the working range ref is
the fresh cell `h.qlists.length` holding a copy of the caller's range (or the
default `[0, 3]`), the working max distance is the stored value (default
100.0), and the working tag ref is a fresh cell holding a copy of the
caller's tags (or `[]`). -/
theorem adjust_init_spec (h : Heap) (uv : UserVectorObj) :
    HeapExtends h (adjust_init h uv).1 ∧
    (adjust_init h uv).2.1 = h.qlists.length ∧
    (adjust_init h uv).2.2.1 = uv.max_distance_km.getD 100 ∧
    ((adjust_init h uv).1.getQ (adjust_init h uv).2.1 =
      (uv.difficulty_range.map h.getQ).getD [0, 3]) ∧
    ((adjust_init h uv).1.getS (adjust_init h uv).2.2.2 =
      (uv.preferred_tags.map h.getS).getD []) := by
  cases hdr : uv.difficulty_range with
  | none =>
    cases hpt : uv.preferred_tags with
    | none =>
      simp only [adjust_init, hdr, hpt]
      refine ⟨(allocQ_extends h _).trans (allocS_extends _ _), rfl, ?_, ?_, ?_⟩
      · cases uv.max_distance_km <;> rfl
      · rw [getQ_allocS, getQ_allocQ_fresh]
        rfl
      · rw [getS_allocS_fresh]
        rfl
    | some tr =>
      simp only [adjust_init, hdr, hpt]
      refine ⟨(allocQ_extends h _).trans (allocS_extends _ _), rfl, ?_, ?_, ?_⟩
      · cases uv.max_distance_km <;> rfl
      · rw [getQ_allocS, getQ_allocQ_fresh]
        rfl
      · rw [getS_allocS_fresh]
        rfl
  | some r =>
    cases hpt : uv.preferred_tags with
    | none =>
      simp only [adjust_init, hdr, hpt]
      refine ⟨(allocQ_extends h _).trans (allocS_extends _ _), rfl, ?_, ?_, ?_⟩
      · cases uv.max_distance_km <;> rfl
      · rw [getQ_allocS, getQ_allocQ_fresh]
        rfl
      · rw [getS_allocS_fresh]
        rfl
    | some tr =>
      simp only [adjust_init, hdr, hpt]
      refine ⟨(allocQ_extends h _).trans (allocS_extends _ _), rfl, ?_, ?_, ?_⟩
      · cases uv.max_distance_km <;> rfl
      · rw [getQ_allocS, getQ_allocQ_fresh]
        rfl
      · rw [getS_allocS_fresh]
        rfl

theorem adjust_finalize_extends (h3 : Heap) (uv : UserVectorObj) (rref' : Ref)
    (maxd' : ℚ) (tref' : Ref) :
    HeapExtends h3 (adjust_finalize h3 uv rref' maxd' tref').1 := by
  unfold adjust_finalize
  cases (h3.getQ rref')[0]? with
  | none => exact HeapExtends.refl h3
  | some lo =>
    cases (h3.getQ rref')[1]? with
    | none => exact HeapExtends.refl h3
    | some hi =>
      simp only
      split_ifs with hinv
      · cases uv.difficulty_range with
        | some r => exact HeapExtends.refl h3
        | none => exact allocQ_extends h3 _
      · exact HeapExtends.refl h3

theorem adjust_extends (h : Heap) (uv : UserVectorObj)
    (fb : List ProfileFeedback) (m : ℤ → Option RouteVectorObj) :
    HeapExtends h (adjust_user_vector_with_feedback h uv fb m).1 := by
  have hinit := adjust_init_spec h uv
  simp only [adjust_user_vector_with_feedback]
  cases hloop : adjust_loop m (uv.min_distance_km.getD 0) fb (adjust_init h uv).1
      (adjust_init h uv).2.1 (adjust_init h uv).2.2.1 (adjust_init h uv).2.2.2 with
  | mk h3 res =>
    have hext3 : HeapExtends h h3 := by
      have hle : h.qlists.length ≤ (adjust_init h uv).2.1 := le_of_eq hinit.2.1.symm
      have := adjust_loop_extends m (uv.min_distance_km.getD 0) fb h
        (adjust_init h uv).1 (adjust_init h uv).2.1 (adjust_init h uv).2.2.1
        (adjust_init h uv).2.2.2 hinit.1 hle
      rw [hloop] at this
      exact this
    cases res with
    | none => exact hext3
    | some s =>
      obtain ⟨r', m', t'⟩ := s
      exact hext3.trans (adjust_finalize_extends h3 uv r' m' t')

/-- A preference dict whose list references all point at existing objects. -/
def UserVectorObj.ValidIn (o : UserVectorObj) (h : Heap) : Prop :=
  (∀ r, o.difficulty_range = some r → r < h.qlists.length) ∧
  (∀ r, o.preferred_tags = some r → r < h.slists.length)

/-- A route vector dict whose tag reference points at an existing object. -/
def RouteVectorObj.ValidIn (o : RouteVectorObj) (h : Heap) : Prop :=
  o.tags < h.slists.length

/-- C9: the adjustment function never mutates its inputs — every list object
that existed before the call reads the same afterwards, so the caller's
preference vector and all supplied item vectors denote the same values; the
adjusted preferences are only returned as a newly assembled vector. -/
theorem claim_C9_adjust_no_mutation (h : Heap) (uv : UserVectorObj)
    (fb : List ProfileFeedback) (m : ℤ → Option RouteVectorObj) :
    (∀ i, i < h.qlists.length →
      ((adjust_user_vector_with_feedback h uv fb m).1).qlists[i]? = h.qlists[i]?) ∧
    (∀ i, i < h.slists.length →
      ((adjust_user_vector_with_feedback h uv fb m).1).slists[i]? = h.slists[i]?) ∧
    (uv.ValidIn h →
      viewUser (adjust_user_vector_with_feedback h uv fb m).1 uv = viewUser h uv) ∧
    (∀ rid rvo, m rid = some rvo → rvo.ValidIn h →
      viewRoute (adjust_user_vector_with_feedback h uv fb m).1 rvo =
        viewRoute h rvo) := by
  have hext := adjust_extends h uv fb m
  refine ⟨hext.2.2.1, hext.2.2.2, ?_, ?_⟩
  · intro hvalid
    have e1 : uv.difficulty_range.map
        ((adjust_user_vector_with_feedback h uv fb m).1).getQ =
        uv.difficulty_range.map h.getQ := by
      cases hdr : uv.difficulty_range with
      | none => rfl
      | some r =>
        simp only [Option.map_some', Option.some.injEq]
        exact getQ_of_extends hext r (hvalid.1 r hdr)
    have e2 : uv.preferred_tags.map
        ((adjust_user_vector_with_feedback h uv fb m).1).getS =
        uv.preferred_tags.map h.getS := by
      cases hpt : uv.preferred_tags with
      | none => rfl
      | some r =>
        simp only [Option.map_some', Option.some.injEq]
        exact getS_of_extends hext r (hvalid.2 r hpt)
    unfold viewUser
    rw [e1, e2]
  · intro rid rvo hm hvalid
    unfold viewRoute
    rw [getS_of_extends hext rvo.tags hvalid]

theorem getQ_valid_of_ne_nil (h : Heap) (r : Ref) (hne : h.getQ r ≠ []) :
    r < h.qlists.length := by
  by_contra hge
  push_neg at hge
  apply hne
  unfold Heap.getQ
  rw [List.getElem?_eq_none (by simpa using hge)]
  rfl

/-- The spec's `PreferenceVector` data-model shape: a difficulty range
`[min, max]` with exactly two bounds and all of variance min/max distance and
preferred tags present. -/
def IsPreferenceVector (h : Heap) (o : UserVectorObj) : Prop :=
  (∃ r mn mx, o.difficulty_range = some r ∧ h.getQ r = [mn, mx]) ∧
  o.min_distance_km.isSome ∧ o.max_distance_km.isSome ∧ o.preferred_tags.isSome

/-- C5: on a preference vector of the data-model shape, adjusting with an
empty feedback list returns a vector equal to the input (the three list/num
values are copied and the final validity checks fall back to the original
values). -/
theorem claim_C5_adjust_empty_feedback_identity (h : Heap) (uv : UserVectorObj)
    (m : ℤ → Option RouteVectorObj) (hpv : IsPreferenceVector h uv) :
    ∃ h' out, adjust_user_vector_with_feedback h uv [] m = (h', some out) ∧
      viewUser h' out = viewUser h uv := by
  obtain ⟨⟨r, mn, mx, hdr, hgq⟩, hmin, hmax, hpt⟩ := hpv
  obtain ⟨mxv, hmxv⟩ := Option.isSome_iff_exists.mp hmax
  obtain ⟨tr, htr⟩ := Option.isSome_iff_exists.mp hpt
  have hinit := adjust_init_spec h uv
  have hrvalid : r < h.qlists.length :=
    getQ_valid_of_ne_nil h r (by rw [hgq]; simp)
  have hcontq : (adjust_init h uv).1.getQ (adjust_init h uv).2.1 = [mn, mx] := by
    rw [hinit.2.2.2.1, hdr, Option.map_some', Option.getD_some, hgq]
  have hconts : (adjust_init h uv).1.getS (adjust_init h uv).2.2.2 = h.getS tr := by
    rw [hinit.2.2.2.2, htr, Option.map_some', Option.getD_some]
  have hmaxd : (adjust_init h uv).2.2.1 = mxv := by
    rw [hinit.2.2.1, hmxv, Option.getD_some]
  have hrun : adjust_user_vector_with_feedback h uv [] m =
      adjust_finalize (adjust_init h uv).1 uv (adjust_init h uv).2.1
        (adjust_init h uv).2.2.1 (adjust_init h uv).2.2.2 := rfl
  rw [hrun]
  unfold adjust_finalize
  rw [hcontq]
  simp only [List.getElem?_cons_zero, List.getElem?_cons_succ]
  rw [hmaxd, hmxv]
  by_cases hinv : mx < mn
  · rw [if_pos hinv, hdr]
    refine ⟨_, _, rfl, ?_⟩
    unfold viewUser
    simp only [hdr, htr, Option.map_some']
    rw [hmxv]
    have hq : (adjust_init h uv).1.getQ r = h.getQ r :=
      getQ_of_extends hinit.1 r hrvalid
    rw [hq, hconts, ite_self]
  · rw [if_neg hinv]
    refine ⟨_, _, rfl, ?_⟩
    unfold viewUser
    simp only [hdr, htr, Option.map_some']
    rw [hmxv]
    rw [hcontq, hconts, hgq, ite_self]

/-- C5 witness: a concrete preference vector with all fields present is
returned unchanged by an adjustment with no feedback. -/
theorem claim_C5_witness :
    ∃ h' out, adjust_user_vector_with_feedback ⟨[[1, 2]], [["forest"]]⟩
        ⟨some 0, some 5, some 20, some 0⟩ [] (fun _ => none) = (h', some out) ∧
      viewUser h' out =
        viewUser ⟨[[1, 2]], [["forest"]]⟩ ⟨some 0, some 5, some 20, some 0⟩ :=
  claim_C5_adjust_empty_feedback_identity ⟨[[1, 2]], [["forest"]]⟩
    ⟨some 0, some 5, some 20, some 0⟩ (fun _ => none)
    ⟨⟨0, 1, 2, rfl, rfl⟩, rfl, rfl, rfl⟩

/-- A `too-hard` iteration on a working range `a :: b :: rest`: both bounds
drop by `0.5 * weight` with `weight = 1`, clamped at 0, and if the new lower
bound hits 0 while the new upper bound is below 1.0 the upper bound is forced
to 1.0; the working refs are unchanged. -/
theorem adjust_step_too_hard (rv_map : ℤ → Option RouteVectorObj) (mind : ℚ)
    (h : Heap) (rref : Ref) (maxd : ℚ) (tref : Ref) (f : ProfileFeedback)
    (rvo : RouteVectorObj) (a b : ℚ) (rest : List ℚ)
    (hreason : f.reason = "too-hard") (hrv : rv_map f.route_id = some rvo)
    (hget : h.getQ rref = a :: b :: rest) :
    adjust_step rv_map mind h rref maxd tref f =
      ((h.setQElem rref 0 (max 0 (a - 1/2))).setQElem rref 1
        (if max 0 (a - 1/2) = 0 ∧ max 0 (b - 1/2) < 1 then 1
         else max 0 (b - 1/2)),
       some (rref, maxd, tref)) := by
  unfold adjust_step
  rw [hrv]
  simp only
  rw [if_pos hreason, hget]
  simp only [List.getElem?_cons_zero, List.getElem?_cons_succ, mul_one]

/-- Reading the working range back after a `too-hard` write. -/
theorem setQElem_twice_getQ (h : Heap) (rref : Ref) (a b x y : ℚ)
    (rest : List ℚ) (hget : h.getQ rref = a :: b :: rest) :
    ((h.setQElem rref 0 x).setQElem rref 1 y).getQ rref = x :: y :: rest := by
  rw [getQ_setQElem_self, getQ_setQElem_self, hget]
  rfl

/-- `[0, 1.0]` is a fixed point of the `too-hard` iteration, so any number of
further entries leaves the working range at `[0, 1.0]`. -/
theorem adjust_loop_too_hard_fixed (rv_map : ℤ → Option RouteVectorObj)
    (mind maxd : ℚ) (rref tref : Ref) (rid : ℤ) (rvo : RouteVectorObj)
    (hrv : rv_map rid = some rvo) :
    ∀ (n : ℕ) (h : Heap), h.getQ rref = [0, 1] →
      ∃ h', adjust_loop rv_map mind (List.replicate n ⟨rid, "too-hard"⟩) h rref
          maxd tref = (h', some (rref, maxd, tref)) ∧ h'.getQ rref = [0, 1] := by
  intro n
  induction n with
  | zero =>
    intro h hget
    exact ⟨h, rfl, hget⟩
  | succ k ih =>
    intro h hget
    have hstep := adjust_step_too_hard rv_map mind h rref maxd tref
      ⟨rid, "too-hard"⟩ rvo 0 1 [] rfl hrv hget
    have hval1 : max 0 ((0 : ℚ) - 1/2) = 0 := by norm_num
    have hval2 : (if max 0 ((0 : ℚ) - 1/2) = 0 ∧ max 0 ((1 : ℚ) - 1/2) < 1 then (1 : ℚ)
        else max 0 ((1 : ℚ) - 1/2)) = 1 := by
      rw [if_pos ⟨hval1, by norm_num⟩]
    have hget' : ((h.setQElem rref 0 (max 0 ((0 : ℚ) - 1/2))).setQElem rref 1
        (if max 0 ((0 : ℚ) - 1/2) = 0 ∧ max 0 ((1 : ℚ) - 1/2) < 1 then 1
         else max 0 ((1 : ℚ) - 1/2))).getQ rref = [0, 1] := by
      rw [setQElem_twice_getQ h rref 0 1 _ _ [] hget, hval2, hval1]
    rw [List.replicate_succ]
    simp only [adjust_loop]
    rw [hstep]
    exact ih _ hget'

/-- Unfolding one successful iteration of the feedback loop. -/
theorem adjust_loop_cons_some (route_vectors : ℤ → Option RouteVectorObj)
    (mind : ℚ) (f : ProfileFeedback) (rest : List ProfileFeedback) (h : Heap)
    (rref : Ref) (maxd : ℚ) (tref : Ref) (h' : Heap) (r' : Ref) (m' : ℚ)
    (t' : Ref)
    (hstep : adjust_step route_vectors mind h rref maxd tref f =
      (h', some (r', m', t'))) :
    adjust_loop route_vectors mind (f :: rest) h rref maxd tref =
      adjust_loop route_vectors mind rest h' r' m' t' := by
  simp only [adjust_loop]
  rw [hstep]

/-- Evaluating the final validity checks when the working range is not
inverted. -/
theorem adjust_finalize_ok (h3 : Heap) (uv : UserVectorObj) (rref' : Ref)
    (maxd' : ℚ) (tref' : Ref) (lo hi : ℚ) (rest : List ℚ)
    (hget : h3.getQ rref' = lo :: hi :: rest) (hnoinv : ¬ hi < lo) :
    adjust_finalize h3 uv rref' maxd' tref' =
      (h3, some ⟨some rref', uv.min_distance_km,
        some (if maxd' ≤ 0 then uv.max_distance_km.getD 100 else maxd'),
        some tref'⟩) := by
  unfold adjust_finalize
  rw [hget]
  simp only [List.getElem?_cons_zero, List.getElem?_cons_succ]
  rw [if_neg hnoinv]
  cases uv.max_distance_km <;> rfl

/-- C6: with the recency weight 1.0 (`days_ago ≤ 0`), each `too-hard` entry
shifts both difficulty bounds down by 0.5, clamped at 0, and forces the upper
bound to at least 1.0 when the lower bound reaches 0; starting from `[1, 2]`,
one entry gives `[0.5, 1.5]`, two give `[0, 1.0]`, and any further entries
leave `[0, 1.0]` unchanged. -/
theorem claim_C6_too_hard_shift :
    (∀ d half : ℚ, d ≤ 0 → calculate_time_decay_weight d half = 1) ∧
    (∀ (rv_map : ℤ → Option RouteVectorObj) (mind : ℚ) (h : Heap) (rref : Ref)
        (maxd : ℚ) (tref : Ref) (f : ProfileFeedback) (rvo : RouteVectorObj)
        (a b : ℚ) (rest : List ℚ),
      f.reason = "too-hard" → rv_map f.route_id = some rvo →
      h.getQ rref = a :: b :: rest →
      (adjust_step rv_map mind h rref maxd tref f).1.getQ rref =
        max 0 (a - 1/2) ::
          (if max 0 (a - 1/2) = 0 ∧ max 0 (b - 1/2) < 1 then 1
           else max 0 (b - 1/2)) :: rest ∧
      (adjust_step rv_map mind h rref maxd tref f).2 =
        some (rref, maxd, tref) ∧
      (max 0 (a - 1/2) = 0 →
        1 ≤ (if max 0 (a - 1/2) = 0 ∧ max 0 (b - 1/2) < 1 then 1
             else max 0 (b - 1/2)))) ∧
    (∀ (h : Heap) (uv : UserVectorObj) (m : ℤ → Option RouteVectorObj) (rid : ℤ)
        (rvo : RouteVectorObj) (r : Ref),
      uv.difficulty_range = some r → h.getQ r = [1, 2] → m rid = some rvo →
      ∀ n : ℕ, 1 ≤ n →
      ∃ h' out rr, adjust_user_vector_with_feedback h uv
          (List.replicate n ⟨rid, "too-hard"⟩) m = (h', some out) ∧
        out.difficulty_range = some rr ∧
        h'.getQ rr = (if n = 1 then [1/2, 3/2] else [0, 1])) := by
  refine ⟨?_, ?_, ?_⟩
  · intro d half hd
    unfold calculate_time_decay_weight
    rw [if_pos hd]
  · intro rv_map mind h rref maxd tref f rvo a b rest hreason hrv hget
    have hstep := adjust_step_too_hard rv_map mind h rref maxd tref f rvo a b
      rest hreason hrv hget
    rw [hstep]
    refine ⟨setQElem_twice_getQ h rref a b _ _ rest hget, rfl, ?_⟩
    intro hmin0
    by_cases hc : max 0 (a - 1/2) = 0 ∧ max 0 (b - 1/2) < 1
    · rw [if_pos hc]
    · rw [if_neg hc]
      rcases (not_and_or.mp hc) with hc1 | hc2
      · exact absurd hmin0 hc1
      · push_neg at hc2
        exact hc2
  · intro h uv m rid rvo r hdr hgq hrv n hn
    have hinit := adjust_init_spec h uv
    cases hini : adjust_init h uv with
    | mk h2 s1 =>
    obtain ⟨R, maxd, tref⟩ := s1
    rw [hini] at hinit
    have hcontq : h2.getQ R = [1, 2] := by
      have := hinit.2.2.2.1
      simp only at this
      rw [this, hdr, Option.map_some', Option.getD_some, hgq]
    -- first too-hard iteration: [1, 2] → [1/2, 3/2]
    have hv1 : max 0 ((1 : ℚ) - 1/2) = 1/2 := by
      rw [max_eq_right (by norm_num : (0 : ℚ) ≤ 1 - 1/2)]
      norm_num
    have hv2 : max 0 ((2 : ℚ) - 1/2) = 3/2 := by
      rw [max_eq_right (by norm_num : (0 : ℚ) ≤ 2 - 1/2)]
      norm_num
    have hnc1 : ¬(max 0 ((1 : ℚ) - 1/2) = 0 ∧ max 0 ((2 : ℚ) - 1/2) < 1) := by
      rintro ⟨hc, _⟩
      rw [hv1] at hc
      norm_num at hc
    have hstep1 := adjust_step_too_hard m (uv.min_distance_km.getD 0) h2 R maxd
      tref ⟨rid, "too-hard"⟩ rvo 1 2 [] rfl hrv hcontq
    have hgetA : ((h2.setQElem R 0 (max 0 ((1 : ℚ) - 1/2))).setQElem R 1
        (if max 0 ((1 : ℚ) - 1/2) = 0 ∧ max 0 ((2 : ℚ) - 1/2) < 1 then 1
         else max 0 ((2 : ℚ) - 1/2))).getQ R = [1/2, 3/2] := by
      rw [setQElem_twice_getQ h2 R 1 2 _ _ [] hcontq, if_neg hnc1, hv1, hv2]
    cases n with
    | zero => omega
    | succ k =>
    cases k with
    | zero =>
      -- exactly one entry
      have hloop1 : adjust_loop m (uv.min_distance_km.getD 0)
          (List.replicate 1 ⟨rid, "too-hard"⟩) h2 R maxd tref =
          (((h2.setQElem R 0 (max 0 ((1 : ℚ) - 1/2))).setQElem R 1
            (if max 0 ((1 : ℚ) - 1/2) = 0 ∧ max 0 ((2 : ℚ) - 1/2) < 1 then 1
             else max 0 ((2 : ℚ) - 1/2))), some (R, maxd, tref)) := by
        rw [List.replicate_one,
          adjust_loop_cons_some _ _ _ _ _ _ _ _ _ _ _ _ hstep1]
        rfl
      have hrun : adjust_user_vector_with_feedback h uv
          (List.replicate 1 ⟨rid, "too-hard"⟩) m =
          adjust_finalize ((h2.setQElem R 0 (max 0 ((1 : ℚ) - 1/2))).setQElem R 1
            (if max 0 ((1 : ℚ) - 1/2) = 0 ∧ max 0 ((2 : ℚ) - 1/2) < 1 then 1
             else max 0 ((2 : ℚ) - 1/2))) uv R maxd tref := by
        simp only [adjust_user_vector_with_feedback, hini, hloop1]
      rw [hrun, adjust_finalize_ok _ uv R maxd tref (1/2) (3/2) [] hgetA
        (by norm_num)]
      refine ⟨_, _, R, rfl, rfl, ?_⟩
      rw [if_pos rfl]
      exact hgetA
    | succ k2 =>
      -- two or more entries: second iteration reaches [0, 1], then fixed
      have hv3 : max 0 ((1 : ℚ)/2 - 1/2) = 0 := by
        rw [show (1 : ℚ)/2 - 1/2 = 0 from by norm_num]
        exact max_self 0
      have hv4 : max 0 ((3 : ℚ)/2 - 1/2) = 1 := by
        rw [show (3 : ℚ)/2 - 1/2 = 1 from by norm_num]
        exact max_eq_right (by norm_num)
      have hnc2 : ¬(max 0 ((1 : ℚ)/2 - 1/2) = 0 ∧ max 0 ((3 : ℚ)/2 - 1/2) < 1) := by
        rintro ⟨_, hc⟩
        rw [hv4] at hc
        norm_num at hc
      have hstep2 := adjust_step_too_hard m (uv.min_distance_km.getD 0) _ R maxd
        tref ⟨rid, "too-hard"⟩ rvo (1/2) (3/2) [] rfl hrv hgetA
      have hgetB : ((((h2.setQElem R 0 (max 0 ((1 : ℚ) - 1/2))).setQElem R 1
          (if max 0 ((1 : ℚ) - 1/2) = 0 ∧ max 0 ((2 : ℚ) - 1/2) < 1 then 1
           else max 0 ((2 : ℚ) - 1/2))).setQElem R 0
            (max 0 ((1 : ℚ)/2 - 1/2))).setQElem R 1
            (if max 0 ((1 : ℚ)/2 - 1/2) = 0 ∧ max 0 ((3 : ℚ)/2 - 1/2) < 1 then 1
             else max 0 ((3 : ℚ)/2 - 1/2))).getQ R = [0, 1] := by
        rw [setQElem_twice_getQ _ R (1/2) (3/2) _ _ [] hgetA, if_neg hnc2, hv3,
          hv4]
      obtain ⟨h3, hl3, hget3⟩ := adjust_loop_too_hard_fixed m
        (uv.min_distance_km.getD 0) maxd R tref rid rvo hrv k2 _ hgetB
      have hloopN : adjust_loop m (uv.min_distance_km.getD 0)
          (List.replicate (k2 + 2) ⟨rid, "too-hard"⟩) h2 R maxd tref =
          (h3, some (R, maxd, tref)) := by
        rw [show k2 + 2 = (k2 + 1) + 1 from rfl, List.replicate_succ,
          adjust_loop_cons_some _ _ _ _ _ _ _ _ _ _ _ _ hstep1,
          List.replicate_succ,
          adjust_loop_cons_some _ _ _ _ _ _ _ _ _ _ _ _ hstep2]
        exact hl3
      have hrun : adjust_user_vector_with_feedback h uv
          (List.replicate (k2 + 2) ⟨rid, "too-hard"⟩) m =
          adjust_finalize h3 uv R maxd tref := by
        simp only [adjust_user_vector_with_feedback, hini, hloopN]
      rw [hrun, adjust_finalize_ok h3 uv R maxd tref 0 1 [] hget3 (by norm_num)]
      refine ⟨_, _, R, rfl, rfl, ?_⟩
      rw [if_neg (by omega : ¬(k2 + 1 + 1 = 1))]
      exact hget3
